import Mathlib

/-!
Verification of the Big Joker Spades game engine (Node.js sources) against its
natural-language specification.  Each section embeds one source module as Lean
definitions, translated directly from the JavaScript, and the theorems at the
end of the file prove or refute the frozen claims about it.

Conventions used throughout the embedding:
* JavaScript numbers that the code ranges over are modelled as `Int` where the
  source only ever handles integers, and as `Rat` where a claim turns on the
  code accepting non-integral values (bid picks).
* A JavaScript value that can be `null`/`undefined`/`NaN` is modelled with
  `Option`; `none` stands for the absent or non-finite value.
* Functions that mutate a `room` object are modelled as state transformers
  returning the updated state together with the result object.
-/

/-- Card record as constructed in `functions/deck.js` (`buildDeck`). -/
structure Card where
  id : String
  suit : String
  rank : String
  is_joker : Bool
  joker_color : Option String
  is_trump : Bool
  trump_rank_value : Int
deriving DecidableEq

/-- `nextSeatClockwise` from `functions/trick.js`: seat 4 wraps to 1. -/
def nextSeatClockwise (seat : Int) : Int :=
  if seat = 4 then 1 else seat + 1

/-- `leftOfDealer` from `functions/trick.js`. -/
def leftOfDealer (dealerSeat : Int) : Int :=
  nextSeatClockwise dealerSeat

/-- `effectiveSuit` from `functions/trick.js`: any trump card acts as suit "S". -/
def effectiveSuit (card : Card) : String :=
  if card.is_trump then "S" else card.suit

/-- The `NON_TRUMP_RANKS` array of `functions/trick.js`. -/
def NON_TRUMP_RANKS : List String :=
  ["2", "3", "4", "5", "6", "7", "8", "9", "10", "J", "Q", "K", "A"]

/-- `nonTrumpRankValue` from `functions/trick.js`: index in `NON_TRUMP_RANKS`,
`-1` when the rank is not in the array (mirrors `indexOf`). -/
def nonTrumpRankValue (card : Card) : Int :=
  match NON_TRUMP_RANKS.findIdx? (fun r => r = card.rank) with
  | some i => (i : Int)
  | none => -1

/-- `teamForSeat` from `functions/trick.js`: seats 1 and 3 are team "A",
everything else is team "B". -/
def teamForSeat (seat : Int) : String :=
  if seat = 1 ∨ seat = 3 then "A" else "B"

/-- `beats` from `functions/trick.js`: whether `cardA` beats `cardB` given the
lead (effective) suit. -/
def beats (cardA cardB : Card) (leadSuit : String) : Bool :=
  if cardA.is_trump ∧ ¬ cardB.is_trump then true
  else if ¬ cardA.is_trump ∧ cardB.is_trump then false
  else if cardA.is_trump ∧ cardB.is_trump then
    decide (cardA.trump_rank_value > cardB.trump_rank_value)
  else
    let aSuit := effectiveSuit cardA
    let bSuit := effectiveSuit cardB
    if aSuit = leadSuit ∧ bSuit ≠ leadSuit then true
    else if aSuit ≠ leadSuit ∧ bSuit = leadSuit then false
    else decide (nonTrumpRankValue cardA > nonTrumpRankValue cardB)

/-- The ace of hearts as a non-trump card (as produced by `buildDeck`). -/
def heartsAce : Card :=
  { id := "HA", suit := "H", rank := "A", is_joker := false, joker_color := none,
    is_trump := false, trump_rank_value := 0 }

/-- The three of clubs as a non-trump card (as produced by `buildDeck`). -/
def clubsThree : Card :=
  { id := "C3", suit := "C", rank := "3", is_joker := false, joker_color := none,
    is_trump := false, trump_rank_value := 0 }

/-- `seatToTeam` as defined in the bidding module (`functions/bidding.js`) and
the renege server iteration: seats 1/3 map to team "A", seats 2/4 to "B",
anything else to `none`. -/
def seatToTeam (seat : Int) : Option String :=
  if seat = 1 ∨ seat = 3 then some "A"
  else if seat = 2 ∨ seat = 4 then some "B"
  else none

/-- `dealingTeamFromDealerSeat` from `functions/bidding.js`. -/
def dealingTeamFromDealerSeat (dealerSeat : Int) : Option String :=
  if dealerSeat = 1 ∨ dealerSeat = 3 then some "A"
  else if dealerSeat = 2 ∨ dealerSeat = 4 then some "B"
  else none

/-- `nonDealingTeamFromDealerSeat` from `functions/bidding.js`. -/
def nonDealingTeamFromDealerSeat (dealerSeat : Int) : Option String :=
  match dealingTeamFromDealerSeat dealerSeat with
  | none => none
  | some t => some (if t = "A" then "B" else "A")

/-- `otherTeam` helper from the renege server iteration. -/
def otherTeam (team : String) : Option String :=
  if team = "A" then some "B"
  else if team = "B" then some "A"
  else none

/-! ## Deck and trump model (`functions/deck.js`) -/

/-- Deck configuration: `{big_joker: "color"|"bw", big_deuce: "D2"|"S2"}`.
The fields are strings, as in the source; any value other than the recognised
alternates falls back to the default ("color" / "D2"). -/
structure DeckConfig where
  big_joker : String
  big_deuce : String
deriving DecidableEq

/-- `defaultConfig` from `functions/deck.js`. -/
def defaultDeckConfig : DeckConfig :=
  { big_joker := "color", big_deuce := "D2" }

/-- The suit array of `buildDeck`. -/
def deckSuits : List String := ["S", "H", "D", "C"]

/-- The rank array of `buildDeck`. -/
def deckRanks : List String :=
  ["2", "3", "4", "5", "6", "7", "8", "9", "10", "J", "Q", "K", "A"]

/-- One standard card as pushed by the `buildDeck` loop. -/
def standardCard (suit rank : String) : Card :=
  { id := suit ++ rank, suit := suit, rank := rank, is_joker := false,
    joker_color := none, is_trump := false, trump_rank_value := 0 }

/-- The loop body of `buildDeck`: all suit/rank combinations except 2H and 2C. -/
def standardPart : List Card :=
  deckSuits.flatMap fun suit =>
    (deckRanks.filter fun rank => ¬ (rank = "2" ∧ (suit = "H" ∨ suit = "C"))).map
      (standardCard suit)

/-- The color joker pushed by `buildDeck`. -/
def jokerColorCard : Card :=
  { id := "JOKER_COLOR", suit := "J", rank := "JOKER", is_joker := true,
    joker_color := some "color", is_trump := true, trump_rank_value := 0 }

/-- The black-and-white joker pushed by `buildDeck`. -/
def jokerBWCard : Card :=
  { id := "JOKER_BW", suit := "J", rank := "JOKER", is_joker := true,
    joker_color := some "bw", is_trump := true, trump_rank_value := 0 }

/-- Big joker id per config (`applyTrumpMeta`): "bw" selects `JOKER_BW`,
anything else selects `JOKER_COLOR`. -/
def bigJokerId (cfg : DeckConfig) : String :=
  if cfg.big_joker = "bw" then "JOKER_BW" else "JOKER_COLOR"

/-- Little joker id per config (`applyTrumpMeta`): the other joker. -/
def littleJokerId (cfg : DeckConfig) : String :=
  if bigJokerId cfg = "JOKER_COLOR" then "JOKER_BW" else "JOKER_COLOR"

/-- Big deuce id per config (`applyTrumpMeta`): "S2" selects `S2`, anything
else selects `D2`. -/
def bigDeuceId (cfg : DeckConfig) : String :=
  if cfg.big_deuce = "S2" then "S2" else "D2"

/-- Little deuce id per config (`applyTrumpMeta`): the other deuce. -/
def littleDeuceId (cfg : DeckConfig) : String :=
  if bigDeuceId cfg = "D2" then "S2" else "D2"

/-- The `spadeOrder` array of `applyTrumpMeta` (spades below the deuces,
strongest first). -/
def spadeOrder : List String :=
  ["A", "K", "Q", "J", "10", "9", "8", "7", "6", "5", "4", "3"]

/-- The sequence of card ids to which `applyTrumpMeta` assigns descending
trump rank values starting at 1000: big joker, little joker, big deuce, little
deuce, then the spades A down to 3. -/
def trumpOrderIds (cfg : DeckConfig) : List String :=
  [bigJokerId cfg, littleJokerId cfg, bigDeuceId cfg, littleDeuceId cfg]
    ++ spadeOrder.map (fun r => "S" ++ r)

/-- `applyTrumpMeta` from `functions/deck.js`, as a pure map over the deck.
The source resets all trump metadata, marks spades / D2 / both jokers as
trump, and then walks `setTrump` over the precedence sequence assigning
`value--` from 1000; since every id in a `buildDeck` deck is unique and each
id of the sequence occurs exactly once, a card ends up with value
`1000 - (its index in the sequence)`, and 0 when it is not in the sequence.
(The source throws `missing_card_for_trump_ranking` when an id of the sequence
is absent; `buildDeck` always supplies all of them.) -/
def applyTrumpMeta (deck : List Card) (cfg : DeckConfig) : List Card :=
  deck.map fun c =>
    { c with
      is_trump :=
        (¬ c.is_joker ∧ c.suit = "S") ∨ c.id = "D2"
          ∨ c.id = "JOKER_COLOR" ∨ c.id = "JOKER_BW"
          ∨ c.id ∈ trumpOrderIds cfg
      trump_rank_value :=
        match (trumpOrderIds cfg).findIdx? (fun id => id = c.id) with
        | some i => 1000 - (i : Int)
        | none => 0 }

/-- `buildDeck` from `functions/deck.js`: the standard part (minus 2H and 2C)
plus the two jokers, with the trump metadata pass applied.  The sanity checks
of the source (size 52, removed cards absent, jokers and D2 present) always
pass on this construction. -/
def buildDeck (cfg : DeckConfig) : List Card :=
  applyTrumpMeta (standardPart ++ [jokerColorCard, jokerBWCard]) cfg

/-- `trump_rank_value` of the first card with a given id in a deck, 0 when
absent (mirrors reading the field off `deck.find(...)`). -/
def trumpValueOf (deck : List Card) (id : String) : Int :=
  ((deck.find? fun c => c.id = id).map Card.trump_rank_value).getD 0

/-! ## Shared team-keyed and seat-keyed containers -/

/-- A pair of values keyed by the two team identifiers "A" and "B" (the shape
of `team_totals`, `confirmed`, `books`, `bags`, `adjustment`, ... objects). -/
structure TeamVals (α : Type) where
  A : α
  B : α
deriving DecidableEq

/-- Read `obj[team]`: defined for "A"/"B", `none` for any other key. -/
def TeamVals.getTeam? {α : Type} (t : TeamVals α) (team : String) : Option α :=
  if team = "A" then some t.A else if team = "B" then some t.B else none

/-- Write `obj[team] = v`: a no-op for keys other than "A"/"B". -/
def TeamVals.setTeam {α : Type} (t : TeamVals α) (team : String) (v : α) : TeamVals α :=
  if team = "A" then { t with A := v } else if team = "B" then { t with B := v } else t

/-- The `picks` object of the bidding state: one nullable numeric pick per
seat.  Picks are rationals because the source validates bids only with
`Number.isFinite` and a range check, so non-integral values are storable. -/
structure BidPicks where
  s1 : Option ℚ
  s2 : Option ℚ
  s3 : Option ℚ
  s4 : Option ℚ
deriving DecidableEq

/-- Read `picks[seat]`; `none` for seats outside 1..4. -/
def BidPicks.getSeat (p : BidPicks) (seat : Int) : Option ℚ :=
  if seat = 1 then p.s1 else if seat = 2 then p.s2
  else if seat = 3 then p.s3 else if seat = 4 then p.s4 else none

/-- Write `picks[seat] = v`; a no-op for seats outside 1..4. -/
def BidPicks.setSeat (p : BidPicks) (seat : Int) (v : ℚ) : BidPicks :=
  if seat = 1 then { p with s1 := some v } else if seat = 2 then { p with s2 := some v }
  else if seat = 3 then { p with s3 := some v } else if seat = 4 then { p with s4 := some v }
  else p

/-- `computeTeamTotalsFromPicks` (and the body of `recomputeTotals`): team A is
seats 1 and 3, team B is seats 2 and 4; absent picks count as 0. -/
def computeTeamTotalsFromPicks (p : BidPicks) : TeamVals ℚ :=
  ⟨p.s1.getD 0 + p.s3.getD 0, p.s2.getD 0 + p.s4.getD 0⟩

/-! ## Scoring engine (`functions/scoring.js`) -/

/-- The configuration fields read by `functions/scoring.js`. -/
structure ScoreConfig where
  ten_for_two_enabled : Bool
  bags_enabled : Bool
  bags_penalty_at : Option Int
  bags_penalty_points : Option Int
deriving DecidableEq

/-- `scoreTeam` from `functions/scoring.js`: returns `(points, bags_add)`. -/
def scoreTeam (bid made : Int) (cfg : ScoreConfig) : Int × Int :=
  if cfg.ten_for_two_enabled ∧ bid ≥ 10 then
    if made ≥ bid then (200, made - bid) else (-200, 0)
  else if made ≥ bid then (bid * 10, made - bid) else (-(bid * 10), 0)

/-- Big-step semantics of the `while (newBags >= at)` loop of
`applyBagsPenalty`: `BagsLoop penaltyAt penaltyPts bags penalty out` holds when
the loop, started with the given bag count and accumulated penalty, terminates
with result `out = (bags, penalty)`.  The loop is modelled relationally because
it does not terminate for every parameter value. -/
inductive BagsLoop (penaltyAt penaltyPts : Int) : Int → Int → Int × Int → Prop where
  | done {bags penalty : Int} :
      bags < penaltyAt → BagsLoop penaltyAt penaltyPts bags penalty (bags, penalty)
  | step {bags penalty : Int} {out : Int × Int} :
      penaltyAt ≤ bags →
      BagsLoop penaltyAt penaltyPts (bags - penaltyAt) (penalty - penaltyPts) out →
      BagsLoop penaltyAt penaltyPts bags penalty out

/-- `applyBagsPenalty` from `functions/scoring.js` as a relation between the
incoming bag count and the returned `{bags, penalty}` pair: with bags disabled
it returns the input with penalty 0, otherwise it runs the subtraction loop
with threshold `bags_penalty_at ?? 10` and step `bags_penalty_points ?? 100`. -/
def ApplyBagsPenalty (cfg : ScoreConfig) (bags : Int) (out : Int × Int) : Prop :=
  if cfg.bags_enabled then
    BagsLoop (cfg.bags_penalty_at.getD 10) (cfg.bags_penalty_points.getD 100) bags 0 out
  else out = (bags, 0)

/-! ## Match configuration -/

/-- The `match_config` fields read by the embedded bidding / renege / hand
lifecycle functions, including the scoring toggles that `scorePlayedHand`
passes into `scoring.scoreHand` as `cfg` (`ten_for_two_enabled`,
`bags_enabled`, `bags_penalty_at`, `bags_penalty_points`). -/
structure MatchConfig where
  board : Option ℚ
  board_value : Option ℚ
  min_total_bid : Option ℚ
  renege_on : Bool
  first_hand_bids_itself : Bool
  ten_for_two_enabled : Bool
  bags_enabled : Bool
  bags_penalty_at : Option ℚ
  bags_penalty_points : Option ℚ
deriving DecidableEq

/-! ## Trick records and renege ledger (renege server iteration) -/

/-- A play entry of an archived trick row, as written by `playCardForSeat`
into `room.trick_history` (the renege adjudication ledger). -/
structure PlayRec where
  seat : Int
  card_id : String
  play_index : Int
  had_led_suit_before_play : Option Bool
  played_eff_suit : Option String
deriving DecidableEq

/-- An archived trick in `room.trick_history`. -/
structure TrickRow where
  trick_index : Int
  leader_seat : Int
  lead_suit : Option String
  winner_seat : Int
  winner_team : String
  plays : List PlayRec
deriving DecidableEq

/-- A record pushed onto `room.renege.calls` by `validateAndApplyRenegeCall`.
The source also stores a wall-clock timestamp `ts` (`Date.now()`), omitted
here as nondeterministic IO, and stores the two deltas as an object keyed by
the two team names; that object is modelled by the `delta_accuser` /
`delta_accused` fields. -/
structure RenegeCallRec where
  id : Int
  hand_number : Int
  trick_index : Int
  accuser_seat : Int
  accuser_team : String
  accused_seat : Int
  accused_team : String
  play_index : Int
  lead_suit : String
  played_eff_suit : String
  had_led_suit_before_play : Option Bool
  confirmed : Bool
  delta_accuser : Int
  delta_accused : Int
deriving DecidableEq

/-- `room.renege`: the per-hand renege call log, net trick adjustment per
team, and id counter. -/
structure RenegeState where
  calls : List RenegeCallRec
  adjustment : TeamVals Int
  next_id : Int
deriving DecidableEq

/-- A play of the current (unfinished) trick. -/
structure TrickPlay where
  seat : Int
  card_id : String
  card : Card
  had_led_suit_before_play : Option Bool
deriving DecidableEq

/-- `room.current_trick`. -/
structure CurrentTrick where
  leaderSeat : Option Int
  leadSuit : Option String
  plays : List TrickPlay
deriving DecidableEq

/-- Modelled from the spec: `trick.startTrick` belongs to a trick-module
iteration that is absent from the sources (only its call sites remain).  Per
the spec a trick starts with the given leader seat (or none), no lead
effective-suit, and an empty play sequence. -/
def startTrick (leaderSeat : Option Int) : CurrentTrick :=
  ⟨leaderSeat, none, []⟩

/-- `determineTrickWinner` from `functions/trick.js`: `null` on an empty play
list, otherwise fold over the remaining plays keeping the play whose card
beats the current best under the lead suit.  A null lead suit is passed into
`beats` as the empty string: the source compares suits with strict equality,
and a comparison with `null` is false exactly as no card carries suit `""`. -/
def determineTrickWinner (t : CurrentTrick) : Option Int :=
  match t.plays with
  | [] => none
  | p0 :: rest =>
    some ((rest.foldl
      (fun best cur =>
        if beats cur.card best.card (t.leadSuit.getD "") then cur else best)
      p0).seat)

/-- The four hands keyed by seat, as returned by `dealHands`. -/
structure Hands where
  h1 : List Card
  h2 : List Card
  h3 : List Card
  h4 : List Card
deriving DecidableEq

/-- Append a card to the hand of a seat (the `hands[seat].push(card)` of the deal
loop); a no-op for seats outside 1..4. -/
def Hands.pushCard (h : Hands) (seat : Int) (c : Card) : Hands :=
  if seat = 1 then { h with h1 := h.h1 ++ [c] }
  else if seat = 2 then { h with h2 := h.h2 ++ [c] }
  else if seat = 3 then { h with h3 := h.h3 ++ [c] }
  else if seat = 4 then { h with h4 := h.h4 ++ [c] }
  else h

/-- `room.hands?.[seat] || []`. -/
def Hands.getSeat (h : Hands) (seat : Int) : List Card :=
  if seat = 1 then h.h1
  else if seat = 2 then h.h2
  else if seat = 3 then h.h3
  else if seat = 4 then h.h4
  else []

/-- `room.hands[seat] = hand` (a no-op for seats outside 1..4). -/
def Hands.setSeat (h : Hands) (seat : Int) (cards : List Card) : Hands :=
  if seat = 1 then { h with h1 := cards }
  else if seat = 2 then { h with h2 := cards }
  else if seat = 3 then { h with h3 := cards }
  else if seat = 4 then { h with h4 := cards }
  else h

/-! ## Bidding state (latest `functions/bidding.js` iteration) -/

/-- The `negotiation` sub-object of the bidding state. -/
structure Negotiation where
  stage : String
  choices : TeamVals (Option String)
  books_made_team : Option String
  increasing_team : Option String
  required_increasing_team_total : Option ℚ
  min_total_bid : ℚ
deriving DecidableEq

/-- `room.bidding` as created by `initBidding` in the latest bidding module
iteration (the one the final servers `require`): board, minimum total bid,
per-seat picks, derived team totals, per-team confirmation, lock order,
negotiation sub-state, the increase-only baseline `min_picks`, and the
`editable_team` restriction. -/
structure BiddingState where
  board : ℚ
  min_total_bid : ℚ
  picks : BidPicks
  team_totals : TeamVals ℚ
  confirmed : TeamVals Bool
  lock_order : List String
  must_confirm_team : Option String
  needs_min_total_resolution : Bool
  negotiation : Option Negotiation
  min_picks : Option BidPicks
  editable_team : Option String
deriving DecidableEq

/-! ## The Room aggregate (renege server iteration) -/

/-- The `match` object of the room: running match score, bag counts and the
target score, all at the JS number domain (ℚ).  Named `MatchState` /
`matchState` because `match` is a reserved word in Lean. -/
structure MatchState where
  score : TeamVals ℚ
  bags : TeamVals ℚ
  target_score : Option ℚ
deriving DecidableEq

/-- The room fields touched by the embedded engine functions (bidding and
negotiation handlers, renege adjudication, card play, hand scoring and hand
lifecycle).  Transport-level fields (`seats`, websockets, `last_hand_summary`)
are owned by the out-of-scope collaborator and are not modelled.  The
`matchState` field is the `match` object of the source room. -/
structure Room where
  phase : String
  dealer_seat : Option Int
  turn_seat : Option Int
  hand_number : Int
  trick_index : Int
  spades_broken : Bool
  books : TeamVals Int
  hands : Hands
  current_trick : CurrentTrick
  trick_history : List TrickRow
  config : DeckConfig
  match_config : MatchConfig
  bidding : Option BiddingState
  final_bids : Option (TeamVals ℚ)
  renege : Option RenegeState
  matchState : MatchState
deriving DecidableEq

/-! ## Bidding and negotiation handlers (latest `functions/bidding.js` iteration)

The handlers return the updated room together with the `{ok}` / `{ok:false,
error}` result object, modelled as `Except String Unit`. -/

/-- `computeMinTotalBidFromBoard`: the classic board minimum, `2*board + 3`
(board 4 gives 11). -/
def computeMinTotalBidFromBoard (board : ℚ) : ℚ :=
  board * 2 + 3

/-- `getBoard`: `match_config.board ?? match_config.board_value ?? 4`. -/
def getBoard (cfg : MatchConfig) : ℚ :=
  cfg.board.getD (cfg.board_value.getD 4)

/-- `getMinTotal`: an explicit `min_total_bid` override wins, otherwise the
board formula. -/
def getMinTotal (cfg : MatchConfig) (board : ℚ) : ℚ :=
  match cfg.min_total_bid with
  | some m => m
  | none => computeMinTotalBidFromBoard board

/-- `initBidding`: fresh bidding state; the non-dealing team locks first, with
lock order ["A", "B"] as a fallback when the dealer seat is not known.  A null
dealer seat passes through `Number(...)` as 0, hence the `getD 0`. -/
def initBidding (cfg : MatchConfig) (dealerSeat : Option Int) : BiddingState :=
  let board := getBoard cfg
  let deal := dealingTeamFromDealerSeat (dealerSeat.getD 0)
  let nonDeal := nonDealingTeamFromDealerSeat (dealerSeat.getD 0)
  let lockOrder := match nonDeal, deal with
    | some nd, some d => [nd, d]
    | _, _ => ["A", "B"]
  { board := board
    min_total_bid := getMinTotal cfg board
    picks := ⟨none, none, none, none⟩
    team_totals := ⟨0, 0⟩
    confirmed := ⟨false, false⟩
    lock_order := lockOrder
    must_confirm_team := lockOrder.head?
    needs_min_total_resolution := false
    negotiation := none
    min_picks := none
    editable_team := none }

/-- `ensureBidding`: create `room.bidding` via `initBidding` when absent. -/
def ensureBidding (room : Room) : Room × BiddingState :=
  match room.bidding with
  | some b => (room, b)
  | none =>
    let b := initBidding room.match_config room.dealer_seat
    ({ room with bidding := some b }, b)

/-- `recomputeTotals`: overwrite the derived team totals from the picks. -/
def recomputeTotals (b : BiddingState) : BiddingState :=
  { b with team_totals := computeTeamTotalsFromPicks b.picks }

/-- `totalAll`: combined total of both teams. -/
def totalAll (b : BiddingState) : ℚ :=
  (b.team_totals.getTeam? "A").getD 0 + (b.team_totals.getTeam? "B").getD 0

/-- `enterNegotiation`: move to the negotiating phase, snapshot the
increase-only baseline, and open the `choose` stage. -/
def enterNegotiation (room : Room) : Room :=
  let p := ensureBidding room
  let b := { p.2 with
    needs_min_total_resolution := true
    min_picks := some p.2.picks
    editable_team := none
    negotiation := some
      { stage := "choose"
        choices := ⟨none, none⟩
        books_made_team := none
        increasing_team := none
        required_increasing_team_total := none
        min_total_bid := p.2.min_total_bid }
    confirmed := ⟨false, false⟩
    must_confirm_team := none }
  { p.1 with phase := "negotiating", bidding := some b }

/-- `resolveToPlaying`: finalize `final_bids` from the current totals and move
to the playing phase. -/
def resolveToPlaying (room : Room) : Room :=
  let p := ensureBidding room
  let b := { p.2 with
    needs_min_total_resolution := false
    editable_team := none
    negotiation := p.2.negotiation.map fun n => { n with stage := "resolved_to_play" } }
  { p.1 with final_bids := some p.2.team_totals, phase := "playing", bidding := some b }

/-- `resolveBooksMade`: finalize `final_bids` from the current totals and mark
the negotiation resolved as books-made (the room stays in the negotiating
phase; the server scores and starts the next hand from there). -/
def resolveBooksMade (room : Room) : Room :=
  let p := ensureBidding room
  let b := { p.2 with
    needs_min_total_resolution := false
    editable_team := none
    negotiation := p.2.negotiation.map fun n => { n with stage := "resolved_books_made" } }
  { p.1 with final_bids := some p.2.team_totals, phase := "negotiating", bidding := some b }

/-- `handleBidSet` (latest bidding iteration): validate the seat, the numeric
range (a `NaN`/non-finite bid is modelled by `none`), the negotiation-stage
gates, the per-team confirmation lock, and the increase-only baseline; then
store the pick and recompute the totals. -/
def handleBidSet (room : Room) (seat : Int) (bid : Option ℚ) : Room × Except String Unit :=
  let p := ensureBidding room
  let room1 := p.1
  let b := p.2
  if ¬ (seat = 1 ∨ seat = 2 ∨ seat = 3 ∨ seat = 4) then (room1, .error "invalid_seat")
  else
    match seatToTeam seat with
    | none => (room1, .error "invalid_team")
    | some team =>
      match bid with
      | none => (room1, .error "invalid_bid")
      | some v =>
        if v < 0 ∨ v > 13 then (room1, .error "invalid_bid")
        else if room1.phase = "negotiating" ∧ b.negotiation.map Negotiation.stage = some "choose" then
          (room1, .error "negotiation_choose_stage_no_bid_edit")
        else if room1.phase = "negotiating"
            ∧ b.negotiation.map Negotiation.stage = some "one_books_waiting_accept"
            ∧ ¬ (b.negotiation.bind Negotiation.increasing_team = some team) then
          (room1, .error "negotiation_other_team_locked")
        else if room1.phase = "negotiating" ∧ b.editable_team.getD team ≠ team then
          (room1, .error "negotiation_other_team_locked")
        else if room1.phase = "negotiating"
            ∧ b.min_picks.elim false (fun mp => decide (v < (mp.getSeat seat).getD 0)) = true then
          (room1, .error "negotiation_must_increase_or_hold")
        else if (b.confirmed.getTeam? team).getD false then
          (room1, .error "team_already_confirmed")
        else
          let b1 := recomputeTotals { b with picks := b.picks.setSeat seat v }
          let b2 :=
            if b1.confirmed.A ∧ b1.confirmed.B then
              { b1 with needs_min_total_resolution := decide (totalAll b1 < b1.min_total_bid) }
            else b1
          ({ room1 with bidding := some b2 }, .ok ())

/-- The teammate-seat computation inlined in `handleBidConfirm`. -/
def teammateSeat (team : String) (s : Int) : Int :=
  if team = "A" then (if s = 1 then 3 else 1) else (if s = 2 then 4 else 2)

/-- `handleBidConfirm` (latest bidding iteration): lock the bid of a team.  During
negotiation it is only usable in the `both_increase_relock` stage.  When the
second team confirms during normal bidding, the combined total decides between
playing (with `final_bids` set) and negotiation. -/
def handleBidConfirm (room : Room) (seat : Int) : Room × Except String Unit :=
  let p := ensureBidding room
  let room1 := p.1
  let b := p.2
  match seatToTeam seat with
  | none => (room1, .error "invalid_team")
  | some team =>
    if room1.phase = "negotiating" ∧ ¬ (b.negotiation.map Negotiation.stage = some "both_increase_relock") then
      (room1, .error "bid_confirm_not_allowed_in_this_negotiation_stage")
    else if ¬ (b.must_confirm_team = some team) then
      (room1, .error "not_your_team_turn_to_confirm")
    else if b.picks.getSeat seat = none ∨ b.picks.getSeat (teammateSeat team seat) = none then
      (room1, .error "both_teammates_must_pick")
    else
      let b1 := recomputeTotals b
      if (b1.team_totals.getTeam? team).getD 0 < b1.board then
        ({ room1 with bidding := some b1 }, .error "team_bid_below_board")
      else
        let b2 := { b1 with confirmed := b1.confirmed.setTeam team true }
        let b3 := { b2 with
          must_confirm_team :=
            if b2.lock_order.get? 0 = some team then b2.lock_order.get? 1 else none }
        if b3.confirmed.A ∧ b3.confirmed.B then
          let b4 := recomputeTotals b3
          let t := totalAll b4
          if room1.phase = "bidding" then
            if t < b4.min_total_bid then
              (enterNegotiation { room1 with bidding := some b4 }, .ok ())
            else
              (resolveToPlaying { room1 with bidding := some b4 }, .ok ())
          else if room1.phase = "negotiating"
              ∧ b4.negotiation.map Negotiation.stage = some "both_increase_relock" then
            if t ≥ b4.min_total_bid then
              (resolveToPlaying { room1 with bidding := some b4 }, .ok ())
            else
              let b5 := { b4 with
                min_picks := some b4.picks
                needs_min_total_resolution := true
                negotiation := b4.negotiation.map (fun n =>
                  { n with
                    stage := "choose"
                    choices := ⟨none, none⟩
                    books_made_team := none
                    increasing_team := none
                    required_increasing_team_total := none })
                confirmed := ⟨false, false⟩
                must_confirm_team := none
                editable_team := none }
              ({ room1 with bidding := some b5 }, .ok ())
          else
            let b4' := recomputeTotals b3
            let b5' := { b4' with
              needs_min_total_resolution :=
                b4'.confirmed.A && b4'.confirmed.B && decide (totalAll b4' < b4'.min_total_bid) }
            ({ room1 with bidding := some b5' }, .ok ())
        else
          let b4 := recomputeTotals b3
          let b5 := { b4 with
            needs_min_total_resolution :=
              b4.confirmed.A && b4.confirmed.B && decide (totalAll b4 < b4.min_total_bid) }
          ({ room1 with bidding := some b5 }, .ok ())

/-- `handleNegotiationChoice` (latest bidding iteration): a team picks
"books_made" or "increase" during the `choose` stage; once both teams have
chosen, the three-branch resolution runs.  (`String(...).trim()` normalization
of the raw choice is elided: the parameter is the trimmed string.) -/
def handleNegotiationChoice (room : Room) (seat : Int) (choice : String) :
    Room × Except String Unit :=
  let p := ensureBidding room
  let room1 := p.1
  let b := p.2
  if ¬ (room1.phase = "negotiating") then (room1, .error "not_in_negotiating")
  else
    match b.negotiation with
    | none => (room1, .error "negotiation_not_in_choose_stage")
    | some n =>
      if ¬ (n.stage = "choose") then (room1, .error "negotiation_not_in_choose_stage")
      else
        match seatToTeam seat with
        | none => (room1, .error "invalid_team")
        | some team =>
          if ¬ (choice = "books_made" ∨ choice = "increase") then
            (room1, .error "invalid_negotiation_choice")
          else
            let n1 := { n with choices := n.choices.setTeam team (some choice) }
            let b1 := { b with negotiation := some n1 }
            match n1.choices.A, n1.choices.B with
            | some a, some bb =>
              if a = "books_made" ∧ bb = "books_made" then
                (resolveBooksMade { room1 with bidding := some b1 }, .ok ())
              else if (a = "books_made" ∧ bb = "increase") ∨ (a = "increase" ∧ bb = "books_made") then
                let b2 := recomputeTotals b1
                let booksTeam := if a = "books_made" then "A" else "B"
                let incTeam := if booksTeam = "A" then "B" else "A"
                let locked := (b2.team_totals.getTeam? booksTeam).getD 0
                let required := max 0 (b2.min_total_bid - locked)
                let n2 := { n1 with
                  stage := "one_books_waiting_accept"
                  books_made_team := some booksTeam
                  increasing_team := some incTeam
                  required_increasing_team_total := some required }
                let b3 := { b2 with
                  negotiation := some n2
                  editable_team := some incTeam
                  confirmed := ⟨false, false⟩
                  must_confirm_team := none }
                ({ room1 with bidding := some b3 }, .ok ())
              else if a = "increase" ∧ bb = "increase" then
                let deal := dealingTeamFromDealerSeat (room1.dealer_seat.getD 0)
                let nonDeal := nonDealingTeamFromDealerSeat (room1.dealer_seat.getD 0)
                let lockOrder := match nonDeal, deal with
                  | some nd, some d => [nd, d]
                  | _, _ => ["A", "B"]
                let n2 := { n1 with stage := "both_increase_relock" }
                let b2 := { b1 with
                  negotiation := some n2
                  editable_team := none
                  confirmed := ⟨false, false⟩
                  lock_order := lockOrder
                  must_confirm_team := lockOrder.head? }
                ({ room1 with bidding := some b2 }, .ok ())
              else ({ room1 with bidding := some b1 }, .ok ())
            | _, _ => ({ room1 with bidding := some b1 }, .ok ())

/-- `handleNegotiationResponse` (latest bidding iteration): the increasing
team answers yes/no in the `one_books_waiting_accept` stage.  Declining
resolves books-made at current totals; accepting requires the team total to
meet the requirement, else `negotiation_increase_not_enough`. -/
def handleNegotiationResponse (room : Room) (seat : Int) (accept : Bool) :
    Room × Except String Unit :=
  let p := ensureBidding room
  let room1 := p.1
  let b := p.2
  if ¬ (room1.phase = "negotiating") then (room1, .error "not_in_negotiating")
  else
    match b.negotiation with
    | none => (room1, .error "negotiation_not_waiting_for_accept")
    | some n =>
      if ¬ (n.stage = "one_books_waiting_accept") then
        (room1, .error "negotiation_not_waiting_for_accept")
      else
        match seatToTeam seat with
        | none => (room1, .error "invalid_team")
        | some team =>
          if ¬ (n.increasing_team = some team) then
            (room1, .error "only_increasing_team_can_respond")
          else if ¬ accept then
            (resolveBooksMade room1, .ok ())
          else
            let b1 := recomputeTotals b
            let required := n.required_increasing_team_total.getD 0
            let incTotal := ((n.increasing_team.bind fun t => b1.team_totals.getTeam? t).getD 0)
            if incTotal < required then
              ({ room1 with bidding := some b1 }, .error "negotiation_increase_not_enough")
            else
              (resolveToPlaying { room1 with bidding := some b1 }, .ok ())

/-! ## Renege adjudication (latest renege server iteration) -/

/-- Payload of a `renege_call` message.  `none` models a field that is
missing, non-finite or non-integral; every such value fails the corresponding
`Number.isFinite` / seat-inclusion / strict-equality check in the source (the
exact error string can differ, the rejection cannot). -/
structure RenegePayload where
  accused_seat : Option Int
  hand_number : Option Int
  trick_index : Option Int
  play_index : Option Int
deriving DecidableEq

/-- The data extracted by the validation half of `validateAndApplyRenegeCall`
once all its guards have passed. -/
structure RenegeFacts where
  accTeam : String
  accusedTeam : String
  accused_seat : Int
  hand_number : Int
  trick_index : Int
  play_index : Int
  lead_suit : String
  played_eff_suit : String
  play : PlayRec
deriving DecidableEq

/-- `ensureRenegeState`: create the per-hand renege ledger when absent. -/
def ensureRenegeState (room : Room) : Room × RenegeState :=
  match room.renege with
  | some rs => (room, rs)
  | none =>
    let rs : RenegeState := ⟨[], ⟨0, 0⟩, 1⟩
    ({ room with renege := some rs }, rs)

/-- `applyRenegeDelta`: add a trick delta to the net adjustment of one team. -/
def applyRenegeDelta (rs : RenegeState) (team : String) (delta : Int) : RenegeState :=
  { rs with adjustment := rs.adjustment.setTeam team ((rs.adjustment.getTeam? team).getD 0 + delta) }

/-- The validation prefix of `validateAndApplyRenegeCall` (everything before
the first mutation of the ledger), in source order.  A falsy `lead_suit` or
`played_eff_suit` (absent or empty string) is rejected exactly as in the
source. -/
def renegeValidate (room : Room) (rs : RenegeState) (accuserSeat : Int)
    (payload : RenegePayload) : Except String RenegeFacts :=
  if ¬ (room.phase = "playing") then .error "not_in_playing"
  else if ¬ room.match_config.renege_on then .error "renege_calls_disabled_when_renege_off"
  else if room.trick_history.length ≥ 13 then .error "hand_already_complete"
  else if ¬ (accuserSeat = 1 ∨ accuserSeat = 2 ∨ accuserSeat = 3 ∨ accuserSeat = 4) then
    .error "invalid_accuser_seat"
  else
    match payload.accused_seat with
    | none => .error "invalid_accused_seat"
    | some accusedSeat =>
      if ¬ (accusedSeat = 1 ∨ accusedSeat = 2 ∨ accusedSeat = 3 ∨ accusedSeat = 4) then
        .error "invalid_accused_seat"
      else
        match seatToTeam accuserSeat, seatToTeam accusedSeat with
        | some accTeam, some accusedTeam =>
          if accTeam = accusedTeam then .error "cannot_accuse_own_team"
          else
            match payload.hand_number with
            | none => .error "invalid_hand_number"
            | some handNumber =>
              if ¬ (handNumber = room.hand_number) then .error "invalid_hand_number"
              else if (rs.calls.filter fun c =>
                  c.hand_number = handNumber ∧ c.accuser_team = accTeam).length ≥ 3 then
                .error "renege_call_limit_reached_for_team"
              else
                match payload.trick_index with
                | none => .error "invalid_trick_index"
                | some trickIndex =>
                  if trickIndex < 0 ∨ trickIndex > 12 then .error "invalid_trick_index"
                  else
                    match room.trick_history.find? fun t => t.trick_index = trickIndex with
                    | none => .error "trick_not_found_or_not_completed"
                    | some trickRow =>
                      match trickRow.lead_suit with
                      | none => .error "trick_missing_lead_suit"
                      | some leadSuit =>
                        if leadSuit = "" then .error "trick_missing_lead_suit"
                        else if ¬ (trickRow.plays.length = 4) then .error "trick_incomplete"
                        else
                          match payload.play_index with
                          | none => .error "missing_play_index"
                          | some pi =>
                            if pi < 0 ∨ pi > 3 then .error "invalid_play_index"
                            else if (rs.calls.find? fun c =>
                                c.hand_number = handNumber ∧ c.trick_index = trickIndex
                                  ∧ c.accused_seat = accusedSeat ∧ c.play_index = pi).isSome then
                              .error "renege_already_called_for_this_target"
                            else
                              match trickRow.plays.get? pi.toNat with
                              | none => .error "play_index_does_not_match_accused_seat"
                              | some accusedPlay =>
                                if ¬ (accusedPlay.seat = accusedSeat) then
                                  .error "play_index_does_not_match_accused_seat"
                                else
                                  match accusedPlay.played_eff_suit with
                                  | none => .error "missing_played_eff_suit"
                                  | some pes =>
                                    if pes = "" then .error "missing_played_eff_suit"
                                    else
                                      .ok { accTeam := accTeam
                                            accusedTeam := accusedTeam
                                            accused_seat := accusedSeat
                                            hand_number := handNumber
                                            trick_index := trickIndex
                                            play_index := pi
                                            lead_suit := leadSuit
                                            played_eff_suit := pes
                                            play := accusedPlay }
        | _, _ => .error "invalid_team"

/-- `validateAndApplyRenegeCall` from the latest renege server iteration:
after `ensureRenegeState` and the validation prefix, adjudicate
(`confirmed` iff the accused had the lead suit available before playing and
played a different effective suit), apply the symmetric `+3`/`-3` trick
adjustment (accuser first, then the accused with the opposite sign), and
append the call record. -/
def validateAndApplyRenegeCall (room : Room) (accuserSeat : Int)
    (payload : RenegePayload) : Room × Except String RenegeCallRec :=
  let p := ensureRenegeState room
  let room1 := p.1
  let rs := p.2
  match renegeValidate room1 rs accuserSeat payload with
  | .error e => (room1, .error e)
  | .ok f =>
    let hadLed := f.play.had_led_suit_before_play = some true
    let isOffSuit := ¬ (f.played_eff_suit = f.lead_suit)
    let confirmedRenege := hadLed ∧ isOffSuit
    let deltaAccuser : Int := if confirmedRenege then 3 else -3
    let deltaAccused : Int := -deltaAccuser
    let rs1 := applyRenegeDelta rs f.accTeam deltaAccuser
    let rs2 := applyRenegeDelta rs1 f.accusedTeam deltaAccused
    let callId := rs2.next_id
    let record : RenegeCallRec :=
      { id := callId
        hand_number := f.hand_number
        trick_index := f.trick_index
        accuser_seat := accuserSeat
        accuser_team := f.accTeam
        accused_seat := f.accused_seat
        accused_team := f.accusedTeam
        play_index := f.play_index
        lead_suit := f.lead_suit
        played_eff_suit := f.played_eff_suit
        had_led_suit_before_play := f.play.had_led_suit_before_play
        confirmed := decide confirmedRenege
        delta_accuser := deltaAccuser
        delta_accused := deltaAccused }
    let rs3 := { rs2 with next_id := rs2.next_id + 1, calls := rs2.calls ++ [record] }
    ({ room1 with renege := some rs3 }, .ok record)

/-! ## The milestone-8 `handleBidSet` (`src/functions/bidding.js`)

This is the bidding module committed under `functions/bidding.js` (an earlier
iteration than the result-object one embedded above; the two differ in guard
order and in the negotiation plumbing but share the bid-value validation). -/

/-- The `room.bidding` object of the milestone-8 module, restricted to the
fields its `handleBidSet` reads and writes. -/
structure M8Bidding where
  picks : BidPicks
  team_totals : TeamVals ℚ
  confirmed : TeamVals Bool
  editable_team : Option String
  min_picks : Option BidPicks
deriving DecidableEq

/-- The room slice read by the milestone-8 `handleBidSet`. -/
structure M8Room where
  phase : String
  bidding : M8Bidding
deriving DecidableEq

/-- `handleBidSet` from `src/functions/bidding.js` (milestone 8).  The seat is
resolved by the server from the connection; the raw bid is `none` when
`Number(bidRaw)` is not finite.  Guard order as in the source: phase,
negotiation editing lock, numeric range, per-team confirmation lock,
increase-only baseline; then the pick is stored and the totals recomputed. -/
def handleBidSetM8 (room : M8Room) (seatNum : Int) (bidRaw : Option ℚ) :
    M8Room × Except String Unit :=
  if ¬ (room.phase = "bidding" ∨ room.phase = "negotiating") then
    (room, .error "not_in_bidding_or_negotiating")
  else
    let team := teamForSeat seatNum
    if room.phase = "negotiating" ∧ room.bidding.editable_team.getD team ≠ team then
      (room, .error "negotiation_other_team_locked")
    else
      match bidRaw with
      | none => (room, .error "invalid_bid")
      | some bid =>
        if bid < 0 ∨ bid > 13 then (room, .error "invalid_bid")
        else if (room.bidding.confirmed.getTeam? team).getD false then
          (room, .error "team_already_confirmed")
        else if room.phase = "negotiating"
            ∧ room.bidding.min_picks.elim false
                (fun mp => decide (bid < (mp.getSeat seatNum).getD 0)) = true then
          (room, .error "negotiation_must_increase_or_hold")
        else
          let picks := room.bidding.picks.setSeat seatNum bid
          ({ room with bidding :=
              { room.bidding with
                picks := picks
                team_totals := computeTeamTotalsFromPicks picks } }, .ok ())

/-! ## Dealer probe, deal, and hand lifecycle -/

/-- Result of `determineFirstDealerSeat`. -/
structure ProbeResult where
  dealer_seat : Int
  found_card_id : String
  dealt_index : Int
deriving DecidableEq

/-- The loop of `determineFirstDealerSeat`: walk the deck dealing to seats
1,2,3,4,1,... and stop at the first diamond-suited card. -/
def probeLoop : List Card → Int → Except String ProbeResult
  | [], _ => .error "probe_no_diamond_found"
  | c :: rest, i =>
    if c.suit = "D" then .ok ⟨i % 4 + 1, c.id, i⟩ else probeLoop rest (i + 1)

/-- `determineFirstDealerSeat` from `functions/dealer.js`.  (The latest call
sites pass a second `bigDeuceId` argument, which the function ignores.) -/
def determineFirstDealerSeat (shuffledDeck : List Card) : Except String ProbeResult :=
  if ¬ (shuffledDeck.length = 52) then .error "probe_invalid_deck"
  else probeLoop shuffledDeck 0

/-- The round-robin loop of `dealHands`: one card at a time to seats
1,2,3,4,1,... -/
def dealLoop : List Card → Int → Hands → Hands
  | [], _, acc => acc
  | c :: rest, seat, acc =>
    dealLoop rest (if seat + 1 > 4 then 1 else seat + 1) (acc.pushCard seat c)

/-- `dealHands` from `functions/deal.js`: requires a 52-card deck, deals
round-robin starting at seat 1, and checks the 13-card post-condition. -/
def dealHands (shuffledDeck : List Card) : Except String Hands :=
  if ¬ (shuffledDeck.length = 52) then .error "deal_invalid_deck"
  else
    let hands := dealLoop shuffledDeck 1 ⟨[], [], [], []⟩
    if hands.h1.length = 13 ∧ hands.h2.length = 13 ∧ hands.h3.length = 13
        ∧ hands.h4.length = 13 then .ok hands
    else .error "deal_bad_hand_size"

/-- `rotateDealer` from the earlier `server.js` iteration (lines 369-371):
advance the dealer one seat clockwise (a null dealer seat passes through
`Number(...)` as 0). -/
def rotateDealer (room : Room) : Room :=
  { room with dealer_seat := some (nextSeatClockwise (room.dealer_seat.getD 0)) }

/-- `startNewHand` from the latest renege server iteration.  The source builds
a deck with `buildDeck(room.config)` and shuffles it; the shuffle is the only
randomness, so the shuffled deck is taken as the `shuffled` parameter.  Note
that the dealer seat is re-determined on EVERY hand by probing `shuffled` for
the first diamond (`determineFirstDealerSeat(shuffled, bigDeuceId)`, the
second argument being ignored), and the very same `shuffled` list is then
dealt as the live hands.  Probe or deal failures (thrown in the source)
surface as `Except.error`. -/
def startNewHand (room : Room) (shuffled : List Card) : Except String Room :=
  let room0 := { room with hand_number := room.hand_number + 1 }
  match determineFirstDealerSeat shuffled with
  | .error e => .error e
  | .ok probe =>
    match dealHands shuffled with
    | .error e => .error e
    | .ok hands =>
      let room1 := { room0 with
        dealer_seat := some probe.dealer_seat
        hands := hands
        trick_index := 0
        current_trick := startTrick none
        trick_history := []
        spades_broken := false
        books := ⟨0, 0⟩
        final_bids := none
        bidding := none
        renege := some ⟨[], ⟨0, 0⟩, 1⟩ }
      if room1.match_config.first_hand_bids_itself ∧ room1.hand_number = (1 : Int) then
        .ok { room1 with
          phase := "playing"
          turn_seat := some (leftOfDealer probe.dealer_seat)
          current_trick := startTrick (some (leftOfDealer probe.dealer_seat)) }
      else
        .ok { room1 with
          phase := "bidding"
          turn_seat := none
          bidding := some (initBidding room1.match_config (some probe.dealer_seat)) }

/-! ## Card play and hand scoring (latest renege server iteration) -/

/-- `ensurePlayingTurnInitialized`: lazily initialise the playing turn.
Outside the playing phase, or when `turn_seat` is already set, this is the
identity; otherwise the turn goes to the seat left of the dealer (a null
dealer seat passes through `Number(...)` as 0) and a fresh current trick led
by that seat is installed. -/
def ensurePlayingTurnInitialized (room : Room) : Room :=
  if ¬ (room.phase = "playing") then room
  else
    match room.turn_seat with
    | some _ => room
    | none =>
      let first := leftOfDealer (room.dealer_seat.getD 0)
      { room with turn_seat := some first, current_trick := startTrick (some first) }

/-- `handHasEffectiveSuit`: some card of the hand has the given effective
suit. -/
def handHasEffectiveSuit (hand : List Card) (suit : String) : Bool :=
  hand.any (fun c => effectiveSuit c = suit)

/-- `handIsAllTrump`: the hand is non-empty and every card is trump. -/
def handIsAllTrump (hand : List Card) : Bool :=
  (!hand.isEmpty) && hand.all (fun c => c.is_trump)

/-- `validatePlayLegality` from the latest renege server iteration: with
renege mode on anything goes; otherwise, when a lead suit is set (JS truthy:
non-null and non-empty), the player must follow it when able; when leading,
trump may not be led before spades are broken unless the hand is all trump. -/
def validatePlayLegality (room : Room) (seat : Int) (card : Card) :
    Except String Unit :=
  if room.match_config.renege_on then .ok ()
  else
    let hand := room.hands.getSeat seat
    let effSuit := effectiveSuit card
    match room.current_trick.leadSuit with
    | some leadSuit =>
      if ¬ (leadSuit = "") then
        if handHasEffectiveSuit hand leadSuit ∧ ¬ (effSuit = leadSuit) then
          .error "must_follow_suit"
        else .ok ()
      else
        if ¬ room.spades_broken ∧ effSuit = "S" ∧ handIsAllTrump hand = false then
          .error "cannot_lead_trump_until_broken"
        else .ok ()
    | none =>
      if ¬ room.spades_broken ∧ effSuit = "S" ∧ handIsAllTrump hand = false then
        .error "cannot_lead_trump_until_broken"
      else .ok ()

/-- `scoreTeam` of `functions/scoring.js` as invoked by the played-hand
pipeline, at the full JS number domain (ℚ): the bids fed into it come from
the rational team totals stored in `final_bids`.  The integer `scoreTeam`
above embeds the same source function at the integer inputs that claim C5
quantifies over; the unused `bags` member of the source argument object is
omitted here as well. -/
def scoreTeamRat (bid made : ℚ) (cfg : MatchConfig) : ℚ × ℚ :=
  if cfg.ten_for_two_enabled ∧ bid ≥ 10 then
    if made ≥ bid then (200, made - bid) else (-200, 0)
  else
    if made ≥ bid then (bid * 10, made - bid) else (-(bid * 10), 0)

/-- The `while (newBags >= at)` loop of `applyBagsPenalty`, run as a function
at the JS number domain (ℚ): `none` exactly when the source loop diverges,
i.e. when the threshold is non-positive and the bag count has reached it (the
C7 analysis of the integer case).  For a positive threshold the bag count
drops below the threshold after finitely many subtractions. -/
def bagsLoopRun (pa pp : ℚ) (bags pen : ℚ) : Option (ℚ × ℚ) :=
  if hlt : bags < pa then some (bags, pen)
  else if hpa : 0 < pa then bagsLoopRun pa pp (bags - pa) (pen - pp)
  else none
termination_by (⌈bags / pa⌉).toNat
decreasing_by
  have h1 : pa ≤ bags := not_lt.mp hlt
  have hne : pa ≠ 0 := ne_of_gt hpa
  have hdiv : (bags - pa) / pa = bags / pa - 1 := by
    rw [sub_div, div_self hne]
  have h3 : (0 : ℤ) < ⌈bags / pa⌉ :=
    Int.ceil_pos.mpr (div_pos (lt_of_lt_of_le hpa h1) hpa)
  rw [hdiv, Int.ceil_sub_one]
  omega

/-- `applyBagsPenalty` run as a function, at the JS number domain and on the
match-level configuration object, starting the penalty accumulator at 0;
`none` when the loop diverges.  The relational `ApplyBagsPenalty` above
embeds the same source function at the integer inputs that claim C7
quantifies over. -/
def applyBagsPenaltyRun (cfg : MatchConfig) (bags : ℚ) : Option (ℚ × ℚ) :=
  if cfg.bags_enabled then
    bagsLoopRun (cfg.bags_penalty_at.getD 10) (cfg.bags_penalty_points.getD 100) bags 0
  else some (bags, 0)

/-- `scoreHand` from `functions/scoring.js`, as consumed by `scorePlayedHand`
(which passes `room.match_config` as `cfg`): per-team base points and bag
accrual via `scoreTeam`, bags added only when enabled, then the bag-penalty
rollover; the penalty joins the score delta.  Returns
`(delta, next_bags)`; the `detail` member of the source result is a
broadcast-only breakdown of these same values and is not modelled.  `none`
when a bag-penalty loop diverges. -/
def scoreHand (bidA bidB madeA madeB : ℚ) (matchBags : TeamVals ℚ)
    (cfg : MatchConfig) : Option (TeamVals ℚ × TeamVals ℚ) :=
  let rA := scoreTeamRat bidA madeA cfg
  let rB := scoreTeamRat bidB madeB cfg
  let nextBagsA := matchBags.A + (if cfg.bags_enabled then rA.2 else 0)
  let nextBagsB := matchBags.B + (if cfg.bags_enabled then rB.2 else 0)
  match applyBagsPenaltyRun cfg nextBagsA, applyBagsPenaltyRun cfg nextBagsB with
  | some pA, some pB => some (⟨rA.1 + pA.2, rB.1 + pB.2⟩, ⟨pA.1, pB.1⟩)
  | _, _ => none

/-- `scorePlayedHand`: score the completed hand from `final_bids` (missing →
0/0 bids) and `books` plus the net renege adjustment per team, then fold the
score delta and the new bag counts into `room.match`.  The source always
returns ok; `none` models divergence of the bag-penalty loop inside
`scoring.scoreHand`. -/
def scorePlayedHand (room : Room) : Option Room :=
  let bids := room.final_bids.getD ⟨0, 0⟩
  let adjA : Int := (room.renege.map (fun r => r.adjustment.A)).getD 0
  let adjB : Int := (room.renege.map (fun r => r.adjustment.B)).getD 0
  match scoreHand bids.A bids.B ((room.books.A + adjA : Int) : ℚ)
      ((room.books.B + adjB : Int) : ℚ) room.matchState.bags room.match_config with
  | none => none
  | some (delta, nextBags) =>
    some { room with matchState :=
      { room.matchState with
        score := ⟨room.matchState.score.A + delta.A, room.matchState.score.B + delta.B⟩
        bags := nextBags } }

/-- `endHandAndMaybeStartNext`: after broadcasting the hand summary (pure
transport, not modelled), end the match immediately when the first hand bid
itself and a team took 10+ books, or when a team reached the target score
(`target_score ?? 500`); otherwise start the next hand.  As in
`startNewHand`, the shuffle of the next deck is the `shuffled` parameter; a
deck/probe exception thrown inside `startNewHand` surfaces as `none`. -/
def endHandAndMaybeStartNext (room : Room) (shuffled : List Card) : Option Room :=
  if room.hand_number = 1 ∧ room.match_config.first_hand_bids_itself
      ∧ (room.books.A ≥ 10 ∨ room.books.B ≥ 10) then some room
  else
    let target := room.matchState.target_score.getD 500
    if room.matchState.score.A ≥ target ∨ room.matchState.score.B ≥ target then
      some room
    else (startNewHand room shuffled).toOption

/-- The mutation half of `playCardForSeat` (everything after the legality
check passes): remove the played card from the hand, install the trick leader
and lead suit when absent (JS falsy: a null leader, a null or empty lead
suit), record the play, break spades on trump; then either pass the turn
clockwise (fewer than 4 plays), or close the trick - winner, book for the
winning team, archived history row - and either progress to the next trick
or, after the 13th archived trick, score the hand (inline when the first hand
bids itself, else via `scorePlayedHand`) and run `endHandAndMaybeStartNext`.
Split out of `playCardForSeat` to keep each definition reviewable, as with
`renegeValidate`.  The trick row stores the leader and winner seats through
`Option.getD 0`; both are always set at this point (four plays exist). -/
def playCardApply (room1 : Room) (mySeat : Int) (idx : Nat) (hand : List Card)
    (card : Card) (hadLed : Option Bool) (shuffled : List Card) :
    Option (Room × Except String Unit) :=
  let room2 := { room1 with hands := room1.hands.setSeat mySeat (hand.eraseIdx idx) }
  let ct0 := room2.current_trick
  let ct1 :=
    if ct0.leaderSeat = none then { ct0 with leaderSeat := some mySeat } else ct0
  let ct2 :=
    if ct1.leadSuit = none ∨ ct1.leadSuit = some "" then
      { ct1 with leadSuit := some (effectiveSuit card) }
    else ct1
  let ct := { ct2 with plays := ct2.plays ++ [⟨mySeat, card.id, card, hadLed⟩] }
  let room3 := { room2 with
    current_trick := ct
    spades_broken := if card.is_trump then true else room2.spades_broken }
  if ct.plays.length < 4 then
    some ({ room3 with turn_seat := some (nextSeatClockwise mySeat) }, Except.ok ())
  else
    let winnerSeat := determineTrickWinner ct
    let winnerTeam := teamForSeat (winnerSeat.getD 0)
    let room4 := { room3 with
      books := room3.books.setTeam winnerTeam
        (((room3.books.getTeam? winnerTeam).getD 0) + 1) }
    let row : TrickRow := {
      trick_index := room4.trick_index
      leader_seat := ct.leaderSeat.getD 0
      lead_suit := ct.leadSuit
      winner_seat := winnerSeat.getD 0
      winner_team := winnerTeam
      plays := ct.plays.enum.map (fun (pi : Nat × TrickPlay) =>
        (⟨pi.2.seat, pi.2.card_id, (pi.1 : Int), pi.2.had_led_suit_before_play,
          some (effectiveSuit pi.2.card)⟩ : PlayRec)) }
    let room5 := { room4 with trick_history := room4.trick_history ++ [row] }
    if room5.trick_history.length ≥ 13 then
      if room5.hand_number = 1 ∧ room5.match_config.first_hand_bids_itself then
        let madeA : ℚ :=
          ((room5.books.A + ((room5.renege.map (fun r => r.adjustment.A)).getD 0) : Int) : ℚ)
        let madeB : ℚ :=
          ((room5.books.B + ((room5.renege.map (fun r => r.adjustment.B)).getD 0) : Int) : ℚ)
        let scored := { room5 with matchState := { room5.matchState with
          score := ⟨room5.matchState.score.A + madeA * 10,
                    room5.matchState.score.B + madeB * 10⟩ } }
        (endHandAndMaybeStartNext scored shuffled).map (fun r => (r, Except.ok ()))
      else
        (scorePlayedHand room5).bind (fun scored =>
          (endHandAndMaybeStartNext scored shuffled).map (fun r => (r, Except.ok ())))
    else
      some ({ room5 with
        trick_index := room5.trick_index + 1
        current_trick := startTrick winnerSeat
        turn_seat := winnerSeat }, Except.ok ())

/-- `playCardForSeat` from the latest renege server iteration: phase gate,
lazy turn initialisation, turn gate (a null turn passes through `Number(...)`
as 0), card lookup in the hand of the seat by string id, the
had-led-suit-before-play snapshot taken on the hand BEFORE the card is
removed, legality check, then the mutation half `playCardApply`.  The shuffle
that a hand-over would feed to `startNewHand` is the `shuffled` parameter.
`none` models the two ways the source call does not return normally:
divergence of the bag-penalty loop during hand scoring, and a deck/probe
exception thrown inside `startNewHand`.  The `score_failed` guard of the
source is unreachable (both scoring branches return ok) and has no
counterpart here; the second `card_not_in_hand` arm below is likewise
unreachable (`findIdx?` returns an in-range index). -/
def playCardForSeat (room : Room) (seatNum : Int) (cardId : String)
    (shuffled : List Card) : Option (Room × Except String Unit) :=
  if ¬ (room.phase = "playing") then some (room, Except.error "not_in_playing")
  else
    let room1 := ensurePlayingTurnInitialized room
    if ¬ (room1.turn_seat.getD 0 = seatNum) then
      some (room1, Except.error "not_your_turn")
    else
      let hand := room1.hands.getSeat seatNum
      match hand.findIdx? (fun c => c.id = cardId) with
      | none => some (room1, Except.error "card_not_in_hand")
      | some idx =>
        match hand[idx]? with
        | none => some (room1, Except.error "card_not_in_hand")
        | some card =>
          let leadSuitNow :=
            match room1.current_trick.leadSuit with
            | some ls => if ls = "" then none else some ls
            | none => none
          let hadLed := leadSuitNow.map (fun ls => handHasEffectiveSuit hand ls)
          match validatePlayLegality room1 seatNum card with
          | .error e => some (room1, Except.error e)
          | .ok _ => playCardApply room1 seatNum idx hand card hadLed shuffled

/-! ## Concrete fixtures used by witnesses and counterexamples -/

/-- The four canonical deck configurations. -/
def allDeckConfigs : List DeckConfig :=
  [⟨"color", "D2"⟩, ⟨"color", "S2"⟩, ⟨"bw", "D2"⟩, ⟨"bw", "S2"⟩]

/-- A match configuration with the bidding-relevant optional fields at their
defaults and the scoring toggles at the room-creation values of the latest
server iteration. -/
def baseMatchConfig : MatchConfig :=
  { board := none, board_value := none, min_total_bid := none,
    renege_on := false, first_hand_bids_itself := false,
    ten_for_two_enabled := true, bags_enabled := false,
    bags_penalty_at := some 10, bags_penalty_points := some 100 }

/-- A freshly created room (lobby defaults, nothing initialised). -/
def baseRoom : Room :=
  { phase := "lobby"
    dealer_seat := none
    turn_seat := none
    hand_number := 0
    trick_index := 0
    spades_broken := false
    books := ⟨0, 0⟩
    hands := ⟨[], [], [], []⟩
    current_trick := startTrick none
    trick_history := []
    config := defaultDeckConfig
    match_config := baseMatchConfig
    bidding := none
    final_bids := none
    renege := none
    matchState := ⟨⟨0, 0⟩, ⟨0, 0⟩, some 500⟩ }

/-- A mid-bidding room: dealer seat 1 (team A deals, so team B locked first
and already confirmed), every seat picked 3, totals in sync, team A to
confirm. -/
def c3Room : Room :=
  { baseRoom with
    phase := "bidding"
    dealer_seat := some 1
    bidding := some
      { initBidding baseMatchConfig (some 1) with
        picks := ⟨some 3, some 3, some 3, some 3⟩
        team_totals := ⟨6, 6⟩
        confirmed := ⟨false, true⟩
        must_confirm_team := some "A" } }

/-- The archived play under accusation in the renege witness: seat 2 had the
lead suit available but played effective suit "S". -/
def c4Play : PlayRec :=
  { seat := 2, card_id := "S3", play_index := 1,
    had_led_suit_before_play := some true, played_eff_suit := some "S" }

/-- A completed archived trick (lead suit "H", four plays) for the renege
witness. -/
def c4TrickRow : TrickRow :=
  { trick_index := 0
    leader_seat := 1
    lead_suit := some "H"
    winner_seat := 1
    winner_team := "A"
    plays :=
      [{ seat := 1, card_id := "HK", play_index := 0,
         had_led_suit_before_play := none, played_eff_suit := some "H" },
       c4Play,
       { seat := 3, card_id := "H7", play_index := 2,
         had_led_suit_before_play := some true, played_eff_suit := some "H" },
       { seat := 4, card_id := "H9", play_index := 3,
         had_led_suit_before_play := some true, played_eff_suit := some "H" }] }

/-- A mid-play renege-mode room with one archived trick and an empty renege
ledger. -/
def c4Room : Room :=
  { baseRoom with
    phase := "playing"
    match_config := { baseMatchConfig with renege_on := true }
    hand_number := 2
    trick_history := [c4TrickRow]
    renege := some ⟨[], ⟨0, 0⟩, 1⟩ }

/-! ## Theorems -/

/-- C1 counterexample: with lead suit "D", the non-trump ace of hearts (whose
effective suit differs from the lead suit) nevertheless beats the non-trump
three of clubs, because `beats` falls through to a literal rank comparison when
neither non-trump card follows the lead suit.  This refutes the clause that a
non-trump card whose effective suit differs from the lead suit never beats any
card. -/
theorem beats_offsuit_counterexample :
    heartsAce.is_trump = false ∧ clubsThree.is_trump = false ∧
    effectiveSuit heartsAce ≠ "D" ∧
    beats heartsAce clubsThree "D" = true := by
  decide

/-- C1 (amended): full case analysis of `beats`.  Trump beats non-trump
unconditionally; between two trump cards the higher `trump_rank_value` wins;
between two non-trump cards a card following the lead suit beats one that does
not, and when both follow the lead suit or both fail to follow it, the higher
literal rank (position in the order 2 < 3 < ... < 10 < J < Q < K < A) wins. -/
theorem beats_cases (a b : Card) (L : String) :
    (a.is_trump = true → b.is_trump = false → beats a b L = true)
    ∧ (a.is_trump = false → b.is_trump = true → beats a b L = false)
    ∧ (a.is_trump = true → b.is_trump = true →
        (beats a b L = true ↔ a.trump_rank_value > b.trump_rank_value))
    ∧ (a.is_trump = false → b.is_trump = false →
        effectiveSuit a = L → effectiveSuit b ≠ L → beats a b L = true)
    ∧ (a.is_trump = false → b.is_trump = false →
        effectiveSuit a ≠ L → effectiveSuit b = L → beats a b L = false)
    ∧ (a.is_trump = false → b.is_trump = false →
        (effectiveSuit a = L ↔ effectiveSuit b = L) →
        (beats a b L = true ↔ nonTrumpRankValue a > nonTrumpRankValue b)) := by
  refine ⟨?_, ?_, ?_, ?_, ?_, ?_⟩
  · intro ha hb
    simp [beats, ha, hb]
  · intro ha hb
    simp [beats, ha, hb]
  · intro ha hb
    simp [beats, ha, hb]
  · intro ha hb hA hB
    simp [beats, ha, hb, hA, hB]
  · intro ha hb hA hB
    simp [beats, ha, hb, hA, hB]
  · intro ha hb hAB
    by_cases hA : effectiveSuit a = L
    · have hB : effectiveSuit b = L := hAB.mp hA
      simp [beats, ha, hb, hA, hB]
    · have hB : effectiveSuit b ≠ L := fun h => hA (hAB.mpr h)
      simp [beats, ha, hb, hA, hB]

/-- C1 witness: concrete instances of the amended `beats` case analysis.  A low
trump (the three of spades) beats the highest non-trump heart for lead suit
"H"; among two hearts the higher rank wins. -/
theorem beats_cases_witness :
    beats { id := "S3", suit := "S", rank := "3", is_joker := false,
            joker_color := none, is_trump := true, trump_rank_value := 985 }
          heartsAce "H" = true
    ∧ beats heartsAce
        { id := "H10", suit := "H", rank := "10", is_joker := false,
          joker_color := none, is_trump := false, trump_rank_value := 0 } "H" = true := by
  constructor
  · exact (beats_cases
      { id := "S3", suit := "S", rank := "3", is_joker := false,
        joker_color := none, is_trump := true, trump_rank_value := 985 }
      heartsAce "H").1 rfl rfl
  · exact ((beats_cases heartsAce
      { id := "H10", suit := "H", rank := "10", is_joker := false,
        joker_color := none, is_trump := false, trump_rank_value := 0 }
      "H").2.2.2.2.2 rfl rfl (by decide)).mpr (by decide)

/-- C2: for every canonical deck configuration, after `buildDeck` (which runs
`applyTrumpMeta`) the trump cards carry the strictly descending values
1000 down to 985 in exactly the precedence big joker, little joker, big
deuce, little deuce, spades A..3; every non-trump card has value 0; the trump
cards are exactly the cards of that precedence sequence; and swapping the
`big_joker` (resp. `big_deuce`) configuration value exchanges the values of
the two jokers (resp. the two deuces) and changes nothing else. -/
theorem trump_ordering_c2 :
    (∀ cfg ∈ allDeckConfigs,
      ((trumpOrderIds cfg).map (trumpValueOf (buildDeck cfg)) =
        [1000, 999, 998, 997, 996, 995, 994, 993, 992, 991, 990, 989, 988, 987, 986, 985])
      ∧ (∀ c ∈ buildDeck cfg, c.is_trump = false → c.trump_rank_value = 0)
      ∧ (∀ c ∈ buildDeck cfg, c.is_trump = true ↔ c.id ∈ trumpOrderIds cfg))
    ∧ (∀ bd ∈ ["D2", "S2"],
      trumpValueOf (buildDeck ⟨"color", bd⟩) "JOKER_COLOR"
          = trumpValueOf (buildDeck ⟨"bw", bd⟩) "JOKER_BW"
      ∧ trumpValueOf (buildDeck ⟨"color", bd⟩) "JOKER_BW"
          = trumpValueOf (buildDeck ⟨"bw", bd⟩) "JOKER_COLOR"
      ∧ (∀ c ∈ buildDeck ⟨"color", bd⟩, c.id ≠ "JOKER_COLOR" → c.id ≠ "JOKER_BW" →
          trumpValueOf (buildDeck ⟨"bw", bd⟩) c.id = c.trump_rank_value))
    ∧ (∀ bj ∈ ["color", "bw"],
      trumpValueOf (buildDeck ⟨bj, "D2"⟩) "D2"
          = trumpValueOf (buildDeck ⟨bj, "S2"⟩) "S2"
      ∧ trumpValueOf (buildDeck ⟨bj, "D2"⟩) "S2"
          = trumpValueOf (buildDeck ⟨bj, "S2"⟩) "D2"
      ∧ (∀ c ∈ buildDeck ⟨bj, "D2"⟩, c.id ≠ "D2" → c.id ≠ "S2" →
          trumpValueOf (buildDeck ⟨bj, "S2"⟩) c.id = c.trump_rank_value)) := by
  decide

/-- C2 witness: the membership hypotheses of `trump_ordering_c2` hold for the
default configuration, giving the concrete precedence chain of the spec
(`JOKER_COLOR` strongest, then `JOKER_BW`, `D2`, `S2`, `SA` ... `S3`). -/
theorem trump_ordering_c2_witness :
    (trumpOrderIds defaultDeckConfig).map (trumpValueOf (buildDeck defaultDeckConfig)) =
      [1000, 999, 998, 997, 996, 995, 994, 993, 992, 991, 990, 989, 988, 987, 986, 985] :=
  (trump_ordering_c2.1 defaultDeckConfig (by decide)).1

/-- C10: the fixed partnership mapping.  `teamForSeat` and `seatToTeam` send
seats 1/3 to team "A" and seats 2/4 to team "B"; the dealing team is "A"
exactly when the dealer seat is 1 or 3 (and "B" exactly when it is 2 or 4);
and the derived team totals sum seats 1 and 3 for team A and seats 2 and 4
for team B. -/
theorem fixed_partnership_c10 :
    (teamForSeat 1 = "A" ∧ teamForSeat 3 = "A" ∧ teamForSeat 2 = "B" ∧ teamForSeat 4 = "B")
    ∧ (seatToTeam 1 = some "A" ∧ seatToTeam 3 = some "A"
        ∧ seatToTeam 2 = some "B" ∧ seatToTeam 4 = some "B")
    ∧ (∀ s : Int, dealingTeamFromDealerSeat s = some "A" ↔ (s = 1 ∨ s = 3))
    ∧ (∀ s : Int, dealingTeamFromDealerSeat s = some "B" ↔ (s = 2 ∨ s = 4))
    ∧ (∀ p : BidPicks, computeTeamTotalsFromPicks p =
        ⟨(p.getSeat 1).getD 0 + (p.getSeat 3).getD 0,
         (p.getSeat 2).getD 0 + (p.getSeat 4).getD 0⟩) := by
  refine ⟨by decide, by decide, ?_, ?_, ?_⟩
  · intro s
    by_cases h1 : s = 1 ∨ s = 3
    · simp [dealingTeamFromDealerSeat, h1]
    · by_cases h2 : s = 2 ∨ s = 4 <;> simp [dealingTeamFromDealerSeat, h1, h2]
  · intro s
    by_cases h1 : s = 1 ∨ s = 3
    · simp [dealingTeamFromDealerSeat, h1]
      omega
    · by_cases h2 : s = 2 ∨ s = 4 <;> simp [dealingTeamFromDealerSeat, h1, h2]
  · intro p
    rfl

/-- C5: `scoreTeam` scores exactly as specified.  With ten-for-two enabled and
bid at least 10: +200 with `made - bid` bags on success, flat -200 with no
bags on failure.  Otherwise: +10*bid with `made - bid` bags on success,
-10*bid with no bags on failure. -/
theorem scoreTeam_c5 (bid made : Int) (cfg : ScoreConfig) :
    (cfg.ten_for_two_enabled = true → bid ≥ 10 →
      (made ≥ bid → scoreTeam bid made cfg = (200, made - bid))
      ∧ (made < bid → scoreTeam bid made cfg = (-200, 0)))
    ∧ (¬ (cfg.ten_for_two_enabled = true ∧ bid ≥ 10) →
      (made ≥ bid → scoreTeam bid made cfg = (10 * bid, made - bid))
      ∧ (made < bid → scoreTeam bid made cfg = (-(10 * bid), 0))) := by
  constructor
  · intro hten hbid
    constructor
    · intro hm
      simp [scoreTeam, hten, hbid, hm]
    · intro hm
      simp [scoreTeam, hten, hbid, not_le.mpr hm]
  · intro hnot
    constructor
    · intro hm
      simp only [scoreTeam, if_neg hnot, if_pos hm]
      exact Prod.ext (by ring) rfl
    · intro hm
      simp only [scoreTeam, if_neg hnot, if_neg (not_le.mpr hm)]
      exact Prod.ext (by ring) rfl

/-- C5 witness: the worked examples of the spec, by instantiating
`scoreTeam_c5`: bid 4 made 6 standard gives +40 and 2 bags; bid 10 made 10
with ten-for-two gives +200; bid 10 made 9 with ten-for-two gives -200. -/
theorem scoreTeam_c5_witness :
    scoreTeam 4 6 ⟨false, true, none, none⟩ = (40, 2)
    ∧ scoreTeam 10 10 ⟨true, true, none, none⟩ = (200, 0)
    ∧ scoreTeam 10 9 ⟨true, true, none, none⟩ = (-200, 0) := by
  refine ⟨?_, ?_, ?_⟩
  · have h := ((scoreTeam_c5 4 6 ⟨false, true, none, none⟩).2 (by decide)).1 (by decide)
    simpa using h
  · have h := ((scoreTeam_c5 10 10 ⟨true, true, none, none⟩).1 rfl (by decide)).1 (by decide)
    simpa using h
  · have h := ((scoreTeam_c5 10 9 ⟨true, true, none, none⟩).1 rfl (by decide)).2 (by decide)
    simpa using h

/-- The bags subtraction loop is deterministic: a given start state evaluates
to at most one result. -/
theorem bagsLoop_det {pa pp : Int} {bags pen : Int} {out out' : Int × Int}
    (h : BagsLoop pa pp bags pen out) (h' : BagsLoop pa pp bags pen out') : out = out' := by
  induction h generalizing out' with
  | done hlt =>
    cases h' with
    | done _ => rfl
    | step hge _ => omega
  | step hge _ ih =>
    cases h' with
    | done hlt => omega
    | step hge' hrec' => exact ih hrec'

/-- With a positive threshold the bags loop terminates from every start
state, ending strictly under the threshold after some number `k` of
subtractions, each contributing one penalty step. -/
theorem bagsLoop_total {pa pp : Int} (hpa : 0 < pa) :
    ∀ n : ℕ, ∀ bags pen : Int, bags.toNat ≤ n →
      ∃ out, BagsLoop pa pp bags pen out ∧ out.1 < pa
        ∧ ∃ k : ℕ, out.1 = bags - pa * k ∧ out.2 = pen - pp * k := by
  intro n
  induction n with
  | zero =>
    intro bags pen hb
    have hlt : bags < pa := by omega
    exact ⟨(bags, pen), .done hlt, hlt, 0, by simp, by simp⟩
  | succ n ih =>
    intro bags pen hb
    by_cases hlt : bags < pa
    · exact ⟨(bags, pen), .done hlt, hlt, 0, by simp, by simp⟩
    · have hge : pa ≤ bags := by omega
      have hb' : (bags - pa).toNat ≤ n := by omega
      obtain ⟨out, hloop, hout, k, hk1, hk2⟩ := ih (bags - pa) (pen - pp) hb'
      refine ⟨out, .step hge hloop, hout, k + 1, ?_, ?_⟩
      · rw [hk1]
        push_cast
        ring
      · rw [hk2]
        push_cast
        ring

/-- With threshold 0 the loop never terminates from a non-negative bag
count: every finite evaluation forces a negative start. -/
theorem bagsLoop_zero_threshold {pp : Int} {bags pen : Int} {out : Int × Int}
    (h : BagsLoop 0 pp bags pen out) : bags < 0 := by
  induction h with
  | done hlt => exact hlt
  | step hge _ ih => omega

/-- C7 counterexample: with bags enabled and a configured threshold of 0
(`bags_penalty_at = 0`), `applyBagsPenalty` does not terminate on 0 bags - the
`while (newBags >= at)` loop subtracts 0 forever - so the claim does not hold
for every configuration with bags enabled. -/
theorem applyBagsPenalty_counterexample :
    ¬ ∃ out, ApplyBagsPenalty ⟨false, true, some 0, some 100⟩ 0 out := by
  rintro ⟨out, h⟩
  simp only [ApplyBagsPenalty] at h
  norm_num at h
  exact absurd (bagsLoop_zero_threshold h) (by omega)

/-- C7 (amended): for every starting bag count and every bags-enabled
configuration whose threshold (`bags_penalty_at ?? 10`) is positive,
`applyBagsPenalty` terminates with a unique result: a bag count strictly
under the threshold obtained by `k` subtractions of the threshold, with a
penalty of `k` times `bags_penalty_points ?? 100`. -/
theorem applyBagsPenalty_total (cfg : ScoreConfig) (bags : Int)
    (hen : cfg.bags_enabled = true) (hpa : 0 < cfg.bags_penalty_at.getD 10) :
    ∃ out, ApplyBagsPenalty cfg bags out
      ∧ (∀ out', ApplyBagsPenalty cfg bags out' → out' = out)
      ∧ out.1 < cfg.bags_penalty_at.getD 10
      ∧ ∃ k : ℕ, out.1 = bags - cfg.bags_penalty_at.getD 10 * k
          ∧ out.2 = -(cfg.bags_penalty_points.getD 100 * k) := by
  obtain ⟨out, hloop, hlt, k, hk1, hk2⟩ :=
    bagsLoop_total hpa bags.toNat bags 0 le_rfl
  refine ⟨out, ?_, ?_, hlt, k, hk1, ?_⟩
  · simpa [ApplyBagsPenalty, hen] using hloop
  · intro out' h'
    simp only [ApplyBagsPenalty, hen, if_true] at h'
    exact bagsLoop_det h' hloop
  · rw [hk2]
    ring

/-- C7 witness: instantiating `applyBagsPenalty_total` at 13 accumulated bags
with the default configuration (threshold 10, penalty 100); the loop run is
also exhibited concretely: one rollover leaving 3 bags and a -100 penalty. -/
theorem applyBagsPenalty_total_witness :
    (∃ out, ApplyBagsPenalty ⟨false, true, none, none⟩ 13 out
      ∧ (∀ out', ApplyBagsPenalty ⟨false, true, none, none⟩ 13 out' → out' = out)
      ∧ out.1 < 10
      ∧ ∃ k : ℕ, out.1 = 13 - 10 * k ∧ out.2 = -(100 * k))
    ∧ ApplyBagsPenalty ⟨false, true, none, none⟩ 13 (3, -100) := by
  constructor
  · exact applyBagsPenalty_total ⟨false, true, none, none⟩ 13 rfl (by decide)
  · simp only [ApplyBagsPenalty]
    norm_num
    exact .step (by decide) (.done (by decide))

/-- C3: when the confirm of the second team succeeds during the bidding phase (its
turn in the lock order, both teammates picked, team total at or above board,
and the other team already confirmed, so both teams become confirmed), the
engine transitions to playing with `final_bids` equal to the current team
totals iff the combined total reaches the minimum total bid, and enters
negotiation otherwise; the minimum total bid is the configured
`min_total_bid` override when present and `2 * board + 3` otherwise, with
board defaulting to 4 (so 11 by default). -/
theorem bidding_resolution_c3 (room : Room) (b : BiddingState) (seat : Int) (team : String)
    (hb : room.bidding = some b)
    (hphase : room.phase = "bidding")
    (hteam : seatToTeam seat = some team)
    (hmin : b.min_total_bid = getMinTotal room.match_config (getBoard room.match_config))
    (hturn : b.must_confirm_team = some team)
    (hpick : ¬ (b.picks.getSeat seat = none ∨ b.picks.getSeat (teammateSeat team seat) = none))
    (hboard : ¬ ((computeTeamTotalsFromPicks b.picks).getTeam? team).getD 0 < b.board)
    (hboth : (b.confirmed.setTeam team true).A = true ∧ (b.confirmed.setTeam team true).B = true) :
    (handleBidConfirm room seat).2 = Except.ok ()
    ∧ (b.picks.s1.getD 0 + b.picks.s3.getD 0 + (b.picks.s2.getD 0 + b.picks.s4.getD 0)
        ≥ getMinTotal room.match_config (getBoard room.match_config) →
      (handleBidConfirm room seat).1.phase = "playing"
      ∧ (handleBidConfirm room seat).1.final_bids
          = some ⟨b.picks.s1.getD 0 + b.picks.s3.getD 0,
                  b.picks.s2.getD 0 + b.picks.s4.getD 0⟩)
    ∧ (b.picks.s1.getD 0 + b.picks.s3.getD 0 + (b.picks.s2.getD 0 + b.picks.s4.getD 0)
        < getMinTotal room.match_config (getBoard room.match_config) →
      (handleBidConfirm room seat).1.phase = "negotiating"
      ∧ (handleBidConfirm room seat).1.final_bids = room.final_bids)
    ∧ getMinTotal room.match_config (getBoard room.match_config)
        = room.match_config.min_total_bid.getD (2 * getBoard room.match_config + 3)
    ∧ (room.match_config.board = none → room.match_config.board_value = none →
        getBoard room.match_config = 4) := by
  have hens : ensureBidding room = (room, b) := by
    simp [ensureBidding, hb]
  have hformula : getMinTotal room.match_config (getBoard room.match_config)
      = room.match_config.min_total_bid.getD (2 * getBoard room.match_config + 3) := by
    cases h : room.match_config.min_total_bid <;>
      simp [getMinTotal, computeMinTotalBidFromBoard, h] <;> ring
  have hdefault : room.match_config.board = none → room.match_config.board_value = none →
      getBoard room.match_config = 4 := by
    intro h1 h2
    simp [getBoard, h1, h2]
  have hb1 : ¬ (((recomputeTotals b).team_totals.getTeam? team).getD 0 < (recomputeTotals b).board) := by
    simpa [recomputeTotals] using hboard
  have hc : ((recomputeTotals b).confirmed.setTeam team true).A = true
      ∧ ((recomputeTotals b).confirmed.setTeam team true).B = true := by
    simpa [recomputeTotals] using hboth
  refine ⟨?_, ?_, ?_, hformula, hdefault⟩
  · simp only [handleBidConfirm, hens, hteam]
    rw [hphase]
    simp only [String.reduceEq, false_and, if_false, reduceIte, hturn, not_true_eq_false,
      Option.some.injEq]
    rw [if_neg hpick, if_neg hb1, if_pos hc]
    rw [apply_ite Prod.snd]
    simp
  · intro hge
    simp only [handleBidConfirm, hens, hteam]
    rw [hphase]
    simp only [String.reduceEq, false_and, if_false, reduceIte, hturn, not_true_eq_false,
      Option.some.injEq]
    rw [if_neg hpick, if_neg hb1, if_pos hc]
    split <;> split
    all_goals
      first
      | (rename_i hcond
         exfalso
         simp only [totalAll, recomputeTotals, computeTeamTotalsFromPicks, TeamVals.getTeam?,
           reduceIte, String.reduceEq, Option.getD_some] at hcond
         rw [hmin] at hcond
         linarith)
      | (constructor
         · simp [resolveToPlaying, ensureBidding]
         · simp [resolveToPlaying, ensureBidding, recomputeTotals, computeTeamTotalsFromPicks])
  · intro hlt
    simp only [handleBidConfirm, hens, hteam]
    rw [hphase]
    simp only [String.reduceEq, false_and, if_false, reduceIte, hturn, not_true_eq_false,
      Option.some.injEq]
    rw [if_neg hpick, if_neg hb1, if_pos hc]
    split <;> split
    all_goals
      first
      | (rename_i hcond
         exfalso
         simp only [totalAll, recomputeTotals, computeTeamTotalsFromPicks, TeamVals.getTeam?,
           reduceIte, String.reduceEq, Option.getD_some, not_lt] at hcond
         rw [hmin] at hcond
         linarith)
      | (constructor
         · simp [enterNegotiation, ensureBidding]
         · simp [enterNegotiation, ensureBidding])

/-- C3 witness: in `c3Room` (team B confirmed, picks 3/3/3/3, defaults giving
minimum total bid 11), seat 1 confirming for team A succeeds and, since the
combined total 12 meets the minimum, resolves to the playing phase with final
bids 6 and 6. -/
theorem bidding_resolution_c3_witness :
    (handleBidConfirm c3Room 1).2 = Except.ok ()
    ∧ (handleBidConfirm c3Room 1).1.phase = "playing"
    ∧ (handleBidConfirm c3Room 1).1.final_bids = some ⟨6, 6⟩ := by
  have h := bidding_resolution_c3 c3Room
    { initBidding baseMatchConfig (some 1) with
      picks := ⟨some 3, some 3, some 3, some 3⟩
      team_totals := ⟨6, 6⟩
      confirmed := ⟨false, true⟩
      must_confirm_team := some "A" } 1 "A" rfl rfl rfl rfl rfl
    (by simp [BidPicks.getSeat, teammateSeat])
    (by norm_num [computeTeamTotalsFromPicks, TeamVals.getTeam?, initBidding, getBoard,
      getMinTotal, baseMatchConfig, computeMinTotalBidFromBoard])
    (by constructor <;> rfl)
  have hge : (3 : ℚ) + 3 + (3 + 3)
      ≥ getMinTotal c3Room.match_config (getBoard c3Room.match_config) := by
    norm_num [c3Room, baseRoom, baseMatchConfig, getMinTotal, getBoard, computeMinTotalBidFromBoard]
  refine ⟨h.1, ?_, ?_⟩
  · exact (h.2.1 (by simpa using hge)).1
  · have h2 := (h.2.1 (by simpa using hge)).2
    norm_num at h2
    exact h2

/-- C6 counterexample: in a plain bidding-phase room, `setBid` with the
non-integral value 5/2 is ACCEPTED and stored as the pick of seat 1 - the source
checks only `Number.isFinite(bid) && 0 <= bid && bid <= 13`, never
integrality - refuting the claim that every non-integer value is rejected
with the invalid-bid error. -/
theorem handleBidSetM8_counterexample :
    (handleBidSetM8 ⟨"bidding", ⟨⟨none, none, none, none⟩, ⟨0, 0⟩, ⟨false, false⟩, none, none⟩⟩
        1 (some (5 / 2))).2 = Except.ok ()
    ∧ (handleBidSetM8 ⟨"bidding", ⟨⟨none, none, none, none⟩, ⟨0, 0⟩, ⟨false, false⟩, none, none⟩⟩
        1 (some (5 / 2))).1.bidding.picks.s1 = some (5 / 2)
    ∧ ¬ ∃ n : Int, (5 / 2 : ℚ) = (n : ℚ) := by
  refine ⟨?_, ?_, ?_⟩
  · norm_num [handleBidSetM8, teamForSeat, TeamVals.getTeam?]
  · norm_num [handleBidSetM8, teamForSeat, TeamVals.getTeam?, BidPicks.setSeat]
  · rintro ⟨n, hn⟩
    have hden : ((5 : ℚ) / 2).den = 1 := by
      rw [hn]
      exact Rat.den_intCast n
    norm_num at hden

/-- C6 (amended): characterization of the milestone-8 `handleBidSet`.  In the
bidding or negotiating phase: a value is accepted and stored iff it is a
finite numeric value in [0, 13] (integrality is NOT required) and no gate
fires; a missing/non-finite or out-of-range value is rejected with
`invalid_bid`; a seat whose team already confirmed is rejected with
`team_already_confirmed`; during negotiation, editing restricted to the other
team is rejected with `negotiation_other_team_locked`, and a value below the
baseline pick of the seat is rejected with `negotiation_must_increase_or_hold`.
Every rejection leaves the room unchanged (the pick is not stored). -/
theorem handleBidSetM8_c6 (room : M8Room) (seat : Int) (bidRaw : Option ℚ)
    (hphase : room.phase = "bidding" ∨ room.phase = "negotiating") :
    (room.phase = "negotiating" → ∀ t, room.bidding.editable_team = some t →
      t ≠ teamForSeat seat →
      handleBidSetM8 room seat bidRaw = (room, Except.error "negotiation_other_team_locked"))
    ∧ (¬ (room.phase = "negotiating" ∧ room.bidding.editable_team.getD (teamForSeat seat)
            ≠ teamForSeat seat) →
      (bidRaw = none ∨ (∃ v, bidRaw = some v ∧ (v < 0 ∨ v > 13))) →
      handleBidSetM8 room seat bidRaw = (room, Except.error "invalid_bid"))
    ∧ (∀ v, bidRaw = some v → 0 ≤ v → v ≤ 13 →
      ¬ (room.phase = "negotiating" ∧ room.bidding.editable_team.getD (teamForSeat seat)
            ≠ teamForSeat seat) →
      (room.bidding.confirmed.getTeam? (teamForSeat seat)).getD false = true →
      handleBidSetM8 room seat bidRaw = (room, Except.error "team_already_confirmed"))
    ∧ (∀ v mp, bidRaw = some v → 0 ≤ v → v ≤ 13 →
      ¬ (room.phase = "negotiating" ∧ room.bidding.editable_team.getD (teamForSeat seat)
            ≠ teamForSeat seat) →
      (room.bidding.confirmed.getTeam? (teamForSeat seat)).getD false = false →
      room.phase = "negotiating" → room.bidding.min_picks = some mp →
      v < (mp.getSeat seat).getD 0 →
      handleBidSetM8 room seat bidRaw = (room, Except.error "negotiation_must_increase_or_hold"))
    ∧ (∀ v, bidRaw = some v → 0 ≤ v → v ≤ 13 →
      ¬ (room.phase = "negotiating" ∧ room.bidding.editable_team.getD (teamForSeat seat)
            ≠ teamForSeat seat) →
      (room.bidding.confirmed.getTeam? (teamForSeat seat)).getD false = false →
      ¬ (room.phase = "negotiating" ∧ room.bidding.min_picks.elim false
            (fun mp => decide (v < (mp.getSeat seat).getD 0)) = true) →
      handleBidSetM8 room seat bidRaw =
        ({ room with bidding :=
            { room.bidding with
              picks := room.bidding.picks.setSeat seat v
              team_totals := computeTeamTotalsFromPicks (room.bidding.picks.setSeat seat v) } },
         Except.ok ())) := by
  have hph : (room.phase = "bidding" ∨ room.phase = "negotiating") := hphase
  refine ⟨?_, ?_, ?_, ?_, ?_⟩
  · intro hneg t het hne
    have hlock : room.phase = "negotiating" ∧ room.bidding.editable_team.getD (teamForSeat seat)
        ≠ teamForSeat seat := ⟨hneg, by simp [het]; exact hne⟩
    simp only [handleBidSetM8, if_pos hph, if_neg (not_not_intro hph), if_pos hlock]
  · intro hnolock hbad
    simp only [handleBidSetM8, if_neg (not_not_intro hph), if_neg hnolock]
    rcases hbad with h | ⟨v, hv, hout⟩
    · rw [h]
    · rw [hv]
      simp [hout]
  · intro v hv h0 h13 hnolock hconf
    simp only [handleBidSetM8, if_neg (not_not_intro hph), if_neg hnolock, hv]
    rw [if_neg (by push_neg; constructor <;> [exact h0; exact h13]), if_pos hconf]
  · intro v mp hv h0 h13 hnolock hconf hneg hmp hbase
    simp only [handleBidSetM8, if_neg (not_not_intro hph), if_neg hnolock, hv]
    rw [if_neg (by push_neg; constructor <;> [exact h0; exact h13]),
      if_neg (by simp [hconf]), if_pos ⟨hneg, by simp [hmp]; exact hbase⟩]
  · intro v hv h0 h13 hnolock hconf hnobase
    simp only [handleBidSetM8, if_neg (not_not_intro hph), if_neg hnolock, hv]
    rw [if_neg (by push_neg; constructor <;> [exact h0; exact h13]),
      if_neg (by simp [hconf]), if_neg hnobase]

/-- C6 witness: concrete instances of `handleBidSetM8_c6`.  A pick of 14 is
rejected with `invalid_bid` and changes nothing; a pick of 5 for a seat whose
team already confirmed is rejected with `team_already_confirmed` and changes
nothing. -/
theorem handleBidSetM8_c6_witness :
    handleBidSetM8 ⟨"bidding", ⟨⟨none, none, none, none⟩, ⟨0, 0⟩, ⟨false, false⟩, none, none⟩⟩
        1 (some 14)
      = (⟨"bidding", ⟨⟨none, none, none, none⟩, ⟨0, 0⟩, ⟨false, false⟩, none, none⟩⟩,
         Except.error "invalid_bid")
    ∧ handleBidSetM8 ⟨"bidding", ⟨⟨none, none, none, none⟩, ⟨0, 0⟩, ⟨true, false⟩, none, none⟩⟩
        1 (some 5)
      = (⟨"bidding", ⟨⟨none, none, none, none⟩, ⟨0, 0⟩, ⟨true, false⟩, none, none⟩⟩,
         Except.error "team_already_confirmed") := by
  constructor
  · exact (handleBidSetM8_c6 _ 1 (some 14) (Or.inl rfl)).2.1
      (by simp [teamForSeat]) (Or.inr ⟨14, rfl, by norm_num⟩)
  · exact (handleBidSetM8_c6 _ 1 (some 5) (Or.inl rfl)).2.2.1 5 rfl
      (by norm_num) (by norm_num) (by simp [teamForSeat]) (by simp [TeamVals.getTeam?, teamForSeat])

/-- The room returned by `ensureRenegeState` is the input with its ledger
filled in (unchanged when the ledger was already present). -/
theorem ensureRenegeState_fst (room : Room) :
    (ensureRenegeState room).1 = { room with renege := some (ensureRenegeState room).2 } := by
  cases room with
  | mk ph ds ts hnn tin sb bk hd ct th cf mc bd fb rn ms =>
    cases rn <;> rfl

/-- C4: an admissible renege call (playing phase with renege mode on, hand
still running, accuser and accused valid seats on opposing teams, matching
hand number, call limit not reached, a completed archived 4-play trick with a
lead suit, a play index holding the play of the accused seat, and no duplicate
call) succeeds; it is confirmed iff the accused had the lead suit available
before playing AND played a different effective suit; a confirmed call moves
the adjustment of the accuser team by +3 and that of the accused team by -3, a false
accusation the reverse, and the two adjustments always cancel (zero-sum). -/
theorem renege_adjudication_c4
    (room : Room) (accuserSeat accusedSeat hn ti pi : Int)
    (accTeam accusedTeam : String) (row : TrickRow) (play : PlayRec) (ls pes : String)
    (hphase : room.phase = "playing")
    (hon : room.match_config.renege_on = true)
    (hhist : room.trick_history.length < 13)
    (haccuser : accuserSeat = 1 ∨ accuserSeat = 2 ∨ accuserSeat = 3 ∨ accuserSeat = 4)
    (haccused : accusedSeat = 1 ∨ accusedSeat = 2 ∨ accusedSeat = 3 ∨ accusedSeat = 4)
    (hteam1 : seatToTeam accuserSeat = some accTeam)
    (hteam2 : seatToTeam accusedSeat = some accusedTeam)
    (hopp : accTeam ≠ accusedTeam)
    (hhn : hn = room.hand_number)
    (hlimit : (((ensureRenegeState room).2.calls.filter fun c =>
        c.hand_number = hn ∧ c.accuser_team = accTeam).length < 3))
    (hti : 0 ≤ ti ∧ ti ≤ 12)
    (hrow : room.trick_history.find? (fun t => t.trick_index = ti) = some row)
    (hlead : row.lead_suit = some ls)
    (hls : ls ≠ "")
    (hplays : row.plays.length = 4)
    (hpi : 0 ≤ pi ∧ pi ≤ 3)
    (hdup : ((ensureRenegeState room).2.calls.find? fun c =>
        c.hand_number = hn ∧ c.trick_index = ti ∧ c.accused_seat = accusedSeat
          ∧ c.play_index = pi).isSome = false)
    (hplay : row.plays.get? pi.toNat = some play)
    (hseat : play.seat = accusedSeat)
    (hpes : play.played_eff_suit = some pes)
    (hpes0 : pes ≠ "") :
    ∃ room' rec,
      validateAndApplyRenegeCall room accuserSeat ⟨some accusedSeat, some hn, some ti, some pi⟩
        = (room', Except.ok rec)
      ∧ (rec.confirmed = true ↔ (play.had_led_suit_before_play = some true ∧ pes ≠ ls))
      ∧ rec.accuser_team = accTeam
      ∧ rec.accused_team = accusedTeam
      ∧ rec.delta_accuser = (if rec.confirmed then 3 else -3)
      ∧ rec.delta_accused = -rec.delta_accuser
      ∧ ∃ rs', room'.renege = some rs'
          ∧ rs'.adjustment.getTeam? accTeam
              = some (((ensureRenegeState room).2.adjustment.getTeam? accTeam).getD 0
                  + (if rec.confirmed then 3 else -3))
          ∧ rs'.adjustment.getTeam? accusedTeam
              = some (((ensureRenegeState room).2.adjustment.getTeam? accusedTeam).getD 0
                  - (if rec.confirmed then 3 else -3))
          ∧ rs'.adjustment.A + rs'.adjustment.B
              = (ensureRenegeState room).2.adjustment.A + (ensureRenegeState room).2.adjustment.B := by
  have hens : ensureRenegeState room = ((ensureRenegeState room).1, (ensureRenegeState room).2) :=
    rfl
  set room1 := (ensureRenegeState room).1 with hr1
  set rs := (ensureRenegeState room).2 with hrs
  have hph1 : room1.phase = "playing" := by rw [hr1, ensureRenegeState_fst]; exact hphase
  have hon1 : room1.match_config.renege_on = true := by
    rw [hr1, ensureRenegeState_fst]; exact hon
  have hth1 : room1.trick_history = room.trick_history := by
    rw [hr1, ensureRenegeState_fst]
  have hhn1 : room1.hand_number = room.hand_number := by
    rw [hr1, ensureRenegeState_fst]
  have hval : renegeValidate room1 rs accuserSeat ⟨some accusedSeat, some hn, some ti, some pi⟩
      = Except.ok ⟨accTeam, accusedTeam, accusedSeat, hn, ti, pi, ls, pes, play⟩ := by
    simp only [renegeValidate, hph1, hon1, hth1, hhn1]
    rw [if_neg (by simp)]
    rw [if_neg (by simp)]
    rw [if_neg (by omega)]
    rw [if_neg (not_not_intro haccuser)]
    rw [if_neg (not_not_intro haccused)]
    rw [hteam1, hteam2]
    dsimp only
    rw [if_neg hopp]
    rw [if_neg (not_not_intro hhn)]
    rw [if_neg (by omega)]
    rw [if_neg (by omega)]
    rw [hrow]
    dsimp only
    rw [hlead]
    dsimp only
    rw [if_neg hls]
    rw [if_neg (not_not_intro hplays)]
    rw [if_neg (by omega)]
    rw [if_neg (by rw [hdup]; simp)]
    rw [hplay]
    dsimp only
    rw [if_neg (not_not_intro hseat)]
    rw [hpes]
    dsimp only
    rw [if_neg hpes0]
  have haT : accTeam = "A" ∨ accTeam = "B" := by
    unfold seatToTeam at hteam1
    split_ifs at hteam1
    · exact Or.inl (Option.some.inj hteam1).symm
    · exact Or.inr (Option.some.inj hteam1).symm
  have hbT : accusedTeam = "A" ∨ accusedTeam = "B" := by
    unfold seatToTeam at hteam2
    split_ifs at hteam2
    · exact Or.inl (Option.some.inj hteam2).symm
    · exact Or.inr (Option.some.inj hteam2).symm
  simp only [validateAndApplyRenegeCall, ← hr1, ← hrs, hval]
  dsimp only
  refine ⟨_, _, rfl, ?_, rfl, rfl, ?_, rfl, ?_⟩
  · simp [decide_eq_true_iff]
  · by_cases hP : (play.had_led_suit_before_play = some true ∧ ¬ (pes = ls)) <;> simp [hP]
  · refine ⟨_, rfl, ?_, ?_, ?_⟩
    · rcases haT with h | h <;> rcases hbT with h2 | h2 <;> try (exact absurd (h.trans h2.symm) hopp)
      all_goals
        simp [applyRenegeDelta, TeamVals.setTeam, TeamVals.getTeam?, h, h2]
    · rcases haT with h | h <;> rcases hbT with h2 | h2 <;> try (exact absurd (h.trans h2.symm) hopp)
      all_goals
        simp [applyRenegeDelta, TeamVals.setTeam, TeamVals.getTeam?, h, h2]
        ring
    · rcases haT with h | h <;> rcases hbT with h2 | h2 <;> try (exact absurd (h.trans h2.symm) hopp)
      all_goals
        simp [applyRenegeDelta, TeamVals.setTeam, TeamVals.getTeam?, h, h2]
        ring

/-- C4 witness: `renege_adjudication_c4` instantiated on `c4Room` - seat 1
(team A) accuses seat 2 (team B) over the archived play in which the accused
had the lead suit "H" available but played effective suit "S": the call is
confirmed and the ledger moves +3 for team A and -3 for team B, summing to
the previous total. -/
theorem renege_adjudication_c4_witness :
    ∃ room' rec,
      validateAndApplyRenegeCall c4Room 1 ⟨some 2, some 2, some 0, some 1⟩
        = (room', Except.ok rec)
      ∧ (rec.confirmed = true ↔
          (c4Play.had_led_suit_before_play = some true ∧ "S" ≠ "H"))
      ∧ rec.accuser_team = "A"
      ∧ rec.accused_team = "B"
      ∧ rec.delta_accuser = (if rec.confirmed then 3 else -3)
      ∧ rec.delta_accused = -rec.delta_accuser
      ∧ ∃ rs', room'.renege = some rs'
          ∧ rs'.adjustment.getTeam? "A"
              = some (((ensureRenegeState c4Room).2.adjustment.getTeam? "A").getD 0
                  + (if rec.confirmed then 3 else -3))
          ∧ rs'.adjustment.getTeam? "B"
              = some (((ensureRenegeState c4Room).2.adjustment.getTeam? "B").getD 0
                  - (if rec.confirmed then 3 else -3))
          ∧ rs'.adjustment.A + rs'.adjustment.B
              = (ensureRenegeState c4Room).2.adjustment.A
                  + (ensureRenegeState c4Room).2.adjustment.B :=
  renege_adjudication_c4 c4Room 1 2 2 0 1 "A" "B" c4TrickRow c4Play "H" "S"
    rfl rfl (by decide) (by decide) (by decide) rfl rfl (by decide) rfl (by decide)
    (by decide) (by decide) rfl (by decide) (by decide) (by decide) (by decide)
    (by decide) rfl (by decide) (by decide)

/-- Recomputing totals that are already in sync with the picks is a no-op. -/
theorem recomputeTotals_self {b : BiddingState}
    (h : b.team_totals = computeTeamTotalsFromPicks b.picks) : recomputeTotals b = b := by
  cases b
  simpa [recomputeTotals] using h.symm

/-- Writing back the bidding state a room already holds is a no-op. -/
theorem room_bidding_eta (room : Room) (b : BiddingState) (h : room.bidding = some b) :
    ({ room with bidding := some b } : Room) = room := by
  cases room
  subst h
  rfl

/-- An option mapped into ok-results never yields an error result. -/
theorem mapOk_ne_error {o : Option Room} {r : Room} {e : String}
    (h : o.map (fun x => (x, Except.ok ()))
        = some (r, (Except.error e : Except String Unit))) : False := by
  cases o <;> simp at h

/-- An option bound into an ok-mapped option never yields an error result. -/
theorem bindMapOk_ne_error {o : Option Room} {g : Room → Option Room} {r : Room}
    {e : String}
    (h : o.bind (fun s => (g s).map (fun x => (x, Except.ok ())))
        = some (r, (Except.error e : Except String Unit))) : False := by
  cases o with
  | none => simp at h
  | some s => exact mapOk_ne_error h

/-- The hand-over tail of `playCardApply` (score-and-progress when the hand
is over, else an ok next-trick result) never yields an error result. -/
theorem tail_ne_error {c1 c2 : Prop} [Decidable c1] [Decidable c2]
    {a : Option Room} {o : Option Room} {g : Room → Option Room}
    {z : Room × Except String Unit} (hz : z.2 = Except.ok ()) {r : Room} {e : String}
    (h : (if c1 then
            if c2 then a.map (fun x => (x, Except.ok ()))
            else o.bind (fun s => (g s).map (fun x => (x, Except.ok ())))
          else some z) = some (r, Except.error e)) : False := by
  split at h
  · split at h
    · exact mapOk_ne_error h
    · exact bindMapOk_ne_error h
  · injection h with h1
    rw [h1] at hz
    simp at hz

/-- The whole decision tail of `playCardApply` (pass the turn on an open
trick, else the hand-over tail) never yields an error result. -/
theorem play_tail_ne_error {c0 c1 c2 : Prop}
    [Decidable c0] [Decidable c1] [Decidable c2]
    {w : Room × Except String Unit} (hw : w.2 = Except.ok ())
    {a : Option Room} {o : Option Room} {g : Room → Option Room}
    {z : Room × Except String Unit} (hz : z.2 = Except.ok ()) {r : Room} {e : String}
    (h : (if c0 then some w
          else if c1 then
            if c2 then a.map (fun x => (x, Except.ok ()))
            else o.bind (fun s => (g s).map (fun x => (x, Except.ok ())))
          else some z) = some (r, Except.error e)) : False := by
  split at h
  · injection h with h1
    rw [h1] at hw
    simp at hw
  · exact tail_ne_error hz h

/-- `playCardApply` never produces an error result: every rejection of
`playCardForSeat` comes from its validation prefix. -/
theorem playCardApply_no_error (room1 : Room) (mySeat : Int) (idx : Nat)
    (hand : List Card) (card : Card) (hadLed : Option Bool) (shuffled : List Card)
    (r : Room) (e : String)
    (h : playCardApply room1 mySeat idx hand card hadLed shuffled
        = some (r, Except.error e)) : False := by
  simp only [playCardApply] at h
  repeat split at h
  all_goals
    first
    | exact mapOk_ne_error h
    | exact bindMapOk_ne_error h
    | exact tail_ne_error rfl h
    | exact play_tail_ne_error rfl rfl h
    | (simp at h
       done)

/-- C9 counterexample: a rejected action CAN mutate the room.  On a lobby
room whose renege ledger has not been created yet, a renege call is rejected
with `not_in_playing`, but `ensureRenegeState` has already initialised
`room.renege`, so the returned room differs from the input. -/
theorem rejection_mutates_room_counterexample :
    (validateAndApplyRenegeCall baseRoom 1 ⟨none, none, none, none⟩).2
        = Except.error "not_in_playing"
    ∧ (validateAndApplyRenegeCall baseRoom 1 ⟨none, none, none, none⟩).1.renege
        = some ⟨[], ⟨0, 0⟩, 1⟩
    ∧ baseRoom.renege = none :=
  ⟨rfl, rfl, rfl⟩

/-- C9 (amended): provided the relevant sub-state is already initialised
(`room.bidding` for the bidding/negotiation handlers, `room.renege` for the
renege handler) and the derived team totals are in sync with the picks (an
invariant the handlers re-establish after every accepted pick), every
rejection returns the room exactly as it was: no field is mutated on any
error path of `handleBidSet`, `handleBidConfirm`, `handleNegotiationChoice`,
`handleNegotiationResponse` or `validateAndApplyRenegeCall`.  A rejected
`playCardForSeat` always returns exactly the lazily turn-initialised room
`ensurePlayingTurnInitialized room`, and that initialisation is the identity
whenever the room is outside the playing phase or its turn seat is already
set - so on a room with an initialised playing turn, a rejected play is
mutation-free as well. -/
theorem rejection_preserves_room_c9 :
    (∀ (room : Room) (b : BiddingState) (seat : Int) (bid : Option ℚ) (e : String),
      room.bidding = some b →
      (handleBidSet room seat bid).2 = Except.error e → (handleBidSet room seat bid).1 = room)
    ∧ (∀ (room : Room) (b : BiddingState) (seat : Int) (e : String),
      room.bidding = some b →
      b.team_totals = computeTeamTotalsFromPicks b.picks →
      (handleBidConfirm room seat).2 = Except.error e → (handleBidConfirm room seat).1 = room)
    ∧ (∀ (room : Room) (b : BiddingState) (seat : Int) (choice : String) (e : String),
      room.bidding = some b →
      (handleNegotiationChoice room seat choice).2 = Except.error e →
      (handleNegotiationChoice room seat choice).1 = room)
    ∧ (∀ (room : Room) (b : BiddingState) (seat : Int) (accept : Bool) (e : String),
      room.bidding = some b →
      b.team_totals = computeTeamTotalsFromPicks b.picks →
      (handleNegotiationResponse room seat accept).2 = Except.error e →
      (handleNegotiationResponse room seat accept).1 = room)
    ∧ (∀ (room : Room) (rs : RenegeState) (acc : Int) (payload : RenegePayload) (e : String),
      room.renege = some rs →
      (validateAndApplyRenegeCall room acc payload).2 = Except.error e →
      (validateAndApplyRenegeCall room acc payload).1 = room)
    ∧ (∀ (room : Room) (seat : Int) (cardId : String) (shuffled : List Card)
        (r : Room) (e : String),
      playCardForSeat room seat cardId shuffled = some (r, Except.error e) →
      r = ensurePlayingTurnInitialized room)
    ∧ (∀ room : Room, room.phase ≠ "playing" ∨ room.turn_seat ≠ none →
      ensurePlayingTurnInitialized room = room) := by
  refine ⟨?_, ?_, ?_, ?_, ?_, ?_, ?_⟩
  · intro room b seat bid e hb he
    have hens : ensureBidding room = (room, b) := by simp [ensureBidding, hb]
    have key : (handleBidSet room seat bid).1 = room
        ∨ (handleBidSet room seat bid).2 = Except.ok () := by
      simp only [handleBidSet, hens]
      repeat
        first
        | exact Or.inl rfl
        | exact Or.inr rfl
        | split
    rcases key with h | h
    · exact h
    · rw [h] at he
      simp at he
  · intro room b seat e hb hsync he
    have hens : ensureBidding room = (room, b) := by simp [ensureBidding, hb]
    rcases hseat : seatToTeam seat with _ | team
    · simp only [handleBidConfirm, hens, hseat]
    · by_cases h2 : room.phase = "negotiating"
          ∧ ¬ (Option.map Negotiation.stage b.negotiation = some "both_increase_relock")
      · simp only [handleBidConfirm, hens, hseat]
        rw [if_pos h2]
      · by_cases h3 : ¬ (b.must_confirm_team = some team)
        · simp only [handleBidConfirm, hens, hseat]
          rw [if_neg h2, if_pos h3]
        · by_cases h4 : b.picks.getSeat seat = none
              ∨ b.picks.getSeat (teammateSeat team seat) = none
          · simp only [handleBidConfirm, hens, hseat]
            rw [if_neg h2, if_neg h3, if_pos h4]
          · by_cases h5 : ((recomputeTotals b).team_totals.getTeam? team).getD 0
                < (recomputeTotals b).board
            · simp only [handleBidConfirm, hens, hseat]
              rw [if_neg h2, if_neg h3, if_neg h4, if_pos h5]
              rw [recomputeTotals_self hsync]
              exact room_bidding_eta room b hb
            · exfalso
              have hok : (handleBidConfirm room seat).2 = Except.ok () := by
                simp only [handleBidConfirm, hens, hseat]
                rw [if_neg h2, if_neg h3, if_neg h4, if_neg h5]
                simp only [apply_ite Prod.snd]
                split_ifs <;> rfl
              rw [hok] at he
              simp at he
  · intro room b seat choice e hb he
    have hens : ensureBidding room = (room, b) := by simp [ensureBidding, hb]
    have key : (handleNegotiationChoice room seat choice).1 = room
        ∨ (handleNegotiationChoice room seat choice).2 = Except.ok () := by
      simp only [handleNegotiationChoice, hens]
      repeat
        first
        | exact Or.inl rfl
        | exact Or.inr rfl
        | split
    rcases key with h | h
    · exact h
    · rw [h] at he
      simp at he
  · intro room b seat accept e hb hsync he
    have hens : ensureBidding room = (room, b) := by simp [ensureBidding, hb]
    have key : (handleNegotiationResponse room seat accept).1 = room
        ∨ (handleNegotiationResponse room seat accept).2 = Except.ok () := by
      simp only [handleNegotiationResponse, hens]
      repeat
        first
        | exact Or.inl rfl
        | exact Or.inl (by rw [recomputeTotals_self hsync]; exact room_bidding_eta room b hb)
        | exact Or.inr rfl
        | split
    rcases key with h | h
    · exact h
    · rw [h] at he
      simp at he
  · intro room rs acc payload e hr he
    have hens : ensureRenegeState room = (room, rs) := by simp [ensureRenegeState, hr]
    have key : (validateAndApplyRenegeCall room acc payload).1 = room
        ∨ ∃ rec, (validateAndApplyRenegeCall room acc payload).2 = Except.ok rec := by
      simp only [validateAndApplyRenegeCall, hens]
      split
      · exact Or.inl rfl
      · exact Or.inr ⟨_, rfl⟩
    rcases key with h | ⟨rec, h⟩
    · exact h
    · rw [h] at he
      simp at he
  · intro room seat cardId shuffled r e h
    by_cases hph : room.phase = "playing"
    · simp only [playCardForSeat] at h
      rw [if_neg (not_not_intro hph)] at h
      by_cases hturn : (ensurePlayingTurnInitialized room).turn_seat.getD 0 = seat
      · rw [if_neg (not_not_intro hturn)] at h
        rcases hf : ((ensurePlayingTurnInitialized room).hands.getSeat seat).findIdx?
            (fun c => c.id = cardId) with _ | idx
        · rw [hf] at h
          dsimp only at h
          simp only [Option.some.injEq, Prod.mk.injEq] at h
          exact h.1.symm
        · rw [hf] at h
          dsimp only at h
          rcases hget : ((ensurePlayingTurnInitialized room).hands.getSeat seat)[idx]?
              with _ | card
          · rw [hget] at h
            dsimp only at h
            simp only [Option.some.injEq, Prod.mk.injEq] at h
            exact h.1.symm
          · rw [hget] at h
            dsimp only at h
            rcases hleg : validatePlayLegality (ensurePlayingTurnInitialized room) seat card
                with e1 | u
            · rw [hleg] at h
              dsimp only at h
              simp only [Option.some.injEq, Prod.mk.injEq] at h
              exact h.1.symm
            · rw [hleg] at h
              dsimp only at h
              exact (playCardApply_no_error _ _ _ _ _ _ _ _ _ h).elim
      · rw [if_pos hturn] at h
        simp only [Option.some.injEq, Prod.mk.injEq] at h
        exact h.1.symm
    · simp only [playCardForSeat] at h
      rw [if_pos hph] at h
      simp only [Option.some.injEq, Prod.mk.injEq] at h
      have hens : ensurePlayingTurnInitialized room = room := by
        rw [ensurePlayingTurnInitialized, if_pos hph]
      rw [hens]
      exact h.1.symm
  · intro room hcase
    rcases hcase with hph | hts
    · simp [ensurePlayingTurnInitialized, hph]
    · rcases hsome : room.turn_seat with _ | t
      · exact absurd hsome hts
      · simp [ensurePlayingTurnInitialized, hsome]

/-- C9 witness: in `c3Room` team B has already confirmed, so a bid change by
seat 2 is rejected with `team_already_confirmed` and, by
`rejection_preserves_room_c9`, the room is returned exactly unchanged; and in
`c4Room` (playing phase, turn seat not yet initialised, no dealer) a play by
seat 3 is rejected with `not_your_turn` and the returned room is, again by
`rejection_preserves_room_c9`, exactly the lazily turn-initialised room: turn
seat 1 and a fresh trick led by seat 1, nothing else touched. -/
theorem rejection_preserves_room_c9_witness :
    (handleBidSet c3Room 2 (some 5)).1 = c3Room
    ∧ ({ c4Room with turn_seat := some 1, current_trick := startTrick (some 1) } : Room)
        = ensurePlayingTurnInitialized c4Room :=
  ⟨rejection_preserves_room_c9.1 c3Room
    { initBidding baseMatchConfig (some 1) with
      picks := ⟨some 3, some 3, some 3, some 3⟩
      team_totals := ⟨6, 6⟩
      confirmed := ⟨false, true⟩
      must_confirm_team := some "A" } 2 (some 5) "team_already_confirmed" rfl rfl,
   rejection_preserves_room_c9.2.2.2.2.2.1 c4Room 3 "HK" []
    { c4Room with turn_seat := some 1, current_trick := startTrick (some 1) }
    "not_your_turn" rfl⟩

set_option maxRecDepth 40000 in
/-- C8 counterexample: starting the next hand after a hand with dealer seat 2
does NOT rotate the dealer to seat 3.  `startNewHand` (the latest hand-start
routine, reached after every non-terminal hand) probes the freshly shuffled
deck anew for the first diamond - here the unshuffled `buildDeck` order, whose
first diamond lands on seat 2 - and deals that very same deck, so the dealer
stays at seat 2 instead of the claimed `nextSeatClockwise 2 = 3`, a fresh
probe IS performed, and there is no separate probe deck. -/
theorem startNewHand_counterexample :
    (startNewHand { baseRoom with dealer_seat := some 2, hand_number := 1 }
        (buildDeck defaultDeckConfig)).map Room.dealer_seat = Except.ok (some 2)
    ∧ nextSeatClockwise 2 = 3 := by
  constructor
  · rfl
  · rfl

/-- C8 (amended): `rotateDealer` from the earlier server iteration does advance
the dealer one seat clockwise, but the latest `startNewHand` determines the
dealer of EVERY hand (not only the first) by a first-diamond probe of the
shuffled deck, and the very deck that was probed is the one dealt into the
four hands - there is no separate probe deck and no clockwise rotation. -/
theorem startNewHand_probe_c8 :
    (∀ (room : Room) (shuffled : List Card) (probe : ProbeResult) (hands : Hands),
      determineFirstDealerSeat shuffled = Except.ok probe →
      dealHands shuffled = Except.ok hands →
      ∃ room', startNewHand room shuffled = Except.ok room'
        ∧ room'.dealer_seat = some probe.dealer_seat
        ∧ room'.hands = hands
        ∧ room'.hand_number = room.hand_number + 1)
    ∧ (∀ room : Room, (rotateDealer room).dealer_seat
        = some (nextSeatClockwise (room.dealer_seat.getD 0))) := by
  constructor
  · intro room shuffled probe hands hprobe hdeal
    simp only [startNewHand, hprobe, hdeal]
    split
    · exact ⟨_, rfl, rfl, rfl, rfl⟩
    · exact ⟨_, rfl, rfl, rfl, rfl⟩
  · intro room
    rfl

set_option maxRecDepth 40000 in
/-- C8 witness: `startNewHand_probe_c8` instantiated on the unshuffled
default deck, whose first diamond (`D2`, dealt index 25) selects seat 2; the
dealt hands are exactly the round-robin split of that same deck. -/
theorem startNewHand_probe_c8_witness :
    ∃ room', startNewHand baseRoom (buildDeck defaultDeckConfig) = Except.ok room'
      ∧ room'.dealer_seat = some (ProbeResult.dealer_seat ⟨2, "D2", 25⟩)
      ∧ room'.hands = dealLoop (buildDeck defaultDeckConfig) 1 ⟨[], [], [], []⟩
      ∧ room'.hand_number = baseRoom.hand_number + 1 :=
  startNewHand_probe_c8.1 baseRoom (buildDeck defaultDeckConfig) ⟨2, "D2", 25⟩
    (dealLoop (buildDeck defaultDeckConfig) 1 ⟨[], [], [], []⟩) rfl rfl
